import Mathlib

/-!
# Verification of the log normalization, merge, search and statistics engine

This development is a shallow embedding of the Rust core of
`claude-code-history-viewer` (the `src-tauri` crate): the statistics
aggregator (`commands/stats.rs`), the tool-result merger and cross-provider
search (`commands/multi_provider.rs`), the search filter validation
(`commands/session/search.rs`), the Claude session loader
(`commands/session/load.rs`) and the Codex provider (`providers/codex.rs`).

Modelling conventions:

* JSON values (`serde_json::Value`) are modelled by the inductive `Json`
  below; objects are association lists and `get` returns the first binding,
  matching `serde_json::Map` lookup on maps with unique keys.
* Fixed-width counters (`u32`/`u64` accumulators) are modelled as `Nat`.
  Rust's debug build panics on overflow, and every counter stays far below
  its bound for any input the program can physically read (a session file
  would need more than 2^30 records to overflow a `u64` token sum), so
  wrap-around of the accumulators is not modelled.  The `as u32` narrowing
  casts that the parsers apply to raw JSON integers ARE modelled (as
  `% 2^32`): those truncations are reachable from input data.
* `chrono` timestamps are modelled as integers (seconds); `Duration
  ::num_minutes` on a non-negative difference is division by 60 rounding
  toward zero, i.e. `Nat` division.
* Effects (file system access, RFC3339 parsing, UUID generation, wall-clock
  reads, JSON line decoding) are modelled as explicit oracle parameters, so
  every definition stays executable and theorems quantify over the oracles.
* Structures from `models/` (not part of the sources handed to us) are
  reconstructed from their use sites and the complete field lists visible in
  the crate's unit tests; `Option`-typed pass-through fields that no claim
  reads are omitted and noted at each structure.
-/

namespace CCHV

/-- Model of `serde_json::Value`.  Numbers are modelled as integers: every
numeric field the claims touch is read through `as_u64`/`as_bool`/`as_str`,
so fractional parts never matter (a fractional number simply fails
`as_u64`, which we model by `asNat` on integers only). -/
inductive Json where
  | null : Json
  | bool (b : Bool) : Json
  | num (n : Int) : Json
  | str (s : String) : Json
  | arr (elems : List Json) : Json
  | obj (fields : List (String × Json)) : Json
  deriving Repr, BEq

namespace Json

/-- `Value::get(key)` on an object: first binding wins (serde maps have
unique keys). -/
def get : Json → String → Option Json
  | obj fields, key => (fields.find? (fun p => p.fst == key)).map (·.snd)
  | _, _ => none

/-- `Value::as_str`. -/
def asStr : Json → Option String
  | str s => some s
  | _ => none

/-- `Value::as_bool`. -/
def asBool : Json → Option Bool
  | bool b => some b
  | _ => none

/-- `Value::as_array`. -/
def asArr : Json → Option (List Json)
  | arr elems => some elems
  | _ => none

/-- `Value::as_u64`: defined exactly on non-negative integers. -/
def asNat : Json → Option Nat
  | num n => if 0 ≤ n then some n.toNat else none
  | _ => none

/-- `Value::is_object`. -/
def isObj : Json → Bool
  | obj _ => true
  | _ => false

end Json

/-- Rust `str::contains` (substring containment).  `splitOn` yields at least
two pieces exactly when the pattern occurs; the empty pattern always
matches, as in Rust. -/
def strContains (s pat : String) : Bool :=
  if pat = "" then true else (s.splitOn pat).length ≥ 2

/-- `models::TokenUsage`: four optional `u32` counters plus a tier label
(`src-tauri/src/models`, reconstructed from the `as u32` stores in
`commands/stats.rs::apply_usage_fields_from_value` and
`providers/codex.rs::load_messages`). -/
structure TokenUsage where
  input_tokens : Option Nat
  output_tokens : Option Nat
  cache_creation_input_tokens : Option Nat
  cache_read_input_tokens : Option Nat
  service_tier : Option String
  deriving Repr, BEq, DecidableEq

/-- The all-`None` `TokenUsage` that the extractors start from. -/
def TokenUsage.empty : TokenUsage :=
  ⟨none, none, none, none, none⟩

/-- `models::ClaudeMessage`, reconstructed from the exhaustive field list in
the crate's unit tests (`commands/multi_provider.rs::tests::make_message`).
The `Option`-typed pass-through fields `cost_usd`, `duration_ms`,
`snapshot`, `is_snapshot_update`, `data`, `tool_use_id`,
`parent_tool_use_id`, `operation`, `hook_count`, `hook_infos`,
`prevented_continuation` and `microcompact_metadata` are omitted: no claim
under verification reads them, and every code path studied here copies
them verbatim from the decoded record. -/
structure ClaudeMessage where
  uuid : String
  parent_uuid : Option String
  session_id : String
  timestamp : String
  message_type : String
  content : Option Json
  project_name : Option String
  tool_use : Option Json
  tool_use_result : Option Json
  is_sidechain : Option Bool
  usage : Option TokenUsage
  role : Option String
  model : Option String
  stop_reason : Option String
  message_id : Option String
  subtype : Option String
  level : Option String
  stop_reason_system : Option String
  compact_metadata : Option Json
  provider : Option String
  deriving Repr, BEq

/-! ## Session active duration (`commands/stats.rs`)

`calculate_session_active_minutes` (stats.rs:995-1025) and the inlined
copies of the same loop in `calculate_session_duration` (stats.rs:528-559)
and `build_global_session_file_stats_from_messages` (stats.rs:647-674).
Timestamps are seconds; `num_minutes` of a sorted difference is `/ 60`. -/

/-- Insertion into a sorted list (ascending), used to model
`Vec::sort` / `sort_unstable` on timestamps (duplicates are
indistinguishable, so stability is irrelevant here). -/
def insertNat (x : Nat) : List Nat → List Nat
  | [] => [x]
  | y :: ys => if x ≤ y then x :: y :: ys else y :: insertNat x ys

/-- Ascending insertion sort on `Nat`, the model of the timestamp sorts. -/
def sortNat (l : List Nat) : List Nat :=
  l.foldr insertNat []

/-- The break threshold of the gap segmentation, in minutes
(`SESSION_BREAK_THRESHOLD_MINUTES`). -/
def SESSION_BREAK_THRESHOLD_MINUTES : Nat := 120

/-- The walk of `calculate_session_active_minutes` over the sorted
timestamp list: state is the start of the currently open period and the
minutes accumulated so far; on the final element the open period is closed
(floored at one minute). -/
def activeMinutesLoop (periodStart total : Nat) : List Nat → Nat
  | [] => total
  | [last] => total + max ((last - periodStart) / 60) 1
  | current :: next :: rest =>
    if (next - current) / 60 > SESSION_BREAK_THRESHOLD_MINUTES then
      activeMinutesLoop next (total + max ((current - periodStart) / 60) 1) (next :: rest)
    else
      activeMinutesLoop periodStart total (next :: rest)

/-- `calculate_session_active_minutes` (stats.rs:995-1025): 0 for an empty
list, 1 for a singleton, otherwise the gap-segmented walk over the sorted
timestamps. -/
def calculate_session_active_minutes (timestamps : List Nat) : Nat :=
  match timestamps with
  | [] => 0
  | [_] => 1
  | _ =>
    match sortNat timestamps with
    | [] => 0
    | first :: rest => activeMinutesLoop first 0 (first :: rest)

/-- Modelled from the spec: split the sorted timestamps into maximal active
periods, starting a new period whenever the gap to the next timestamp
exceeds the 120-minute threshold. -/
def gapSegments : List Nat → List (List Nat)
  | [] => []
  | [x] => [[x]]
  | x :: y :: rest =>
    match gapSegments (y :: rest) with
    | [] => [[x]]
    | seg :: segs =>
      if (y - x) / 60 > SESSION_BREAK_THRESHOLD_MINUTES then
        [x] :: seg :: segs
      else
        (x :: seg) :: segs

/-- Modelled from the spec: a closed period's duration is its end minus its
start (in whole minutes), floored at 1 minute. -/
def segmentMinutes (seg : List Nat) : Nat :=
  match seg with
  | [] => 0
  | first :: rest => max (((first :: rest).getLastD 0 - first) / 60) 1

/-- Modelled from the spec (§4.5 of spec.md): sort the included timestamps,
segment at gaps exceeding 120 minutes, and sum the per-period durations,
each floored at one minute; the empty list yields 0. -/
def specSessionActiveMinutes (timestamps : List Nat) : Nat :=
  ((gapSegments (sortNat timestamps)).map segmentMinutes).sum

/-- The minutes contributed by a suffix of the walk when the currently open
period started at `periodStart`: the first segment is measured from
`periodStart`, later segments from their own first element. -/
def activeSuffixSum (periodStart : Nat) (l : List Nat) : Nat :=
  match gapSegments l with
  | [] => 0
  | seg :: segs => max ((seg.getLastD 0 - periodStart) / 60) 1 + (segs.map segmentMinutes).sum

theorem gapSegments_cons_shape (y : Nat) (rest : List Nat) :
    ∃ t segs, gapSegments (y :: rest) = (y :: t) :: segs := by
  cases rest with
  | nil => exact ⟨[], [], rfl⟩
  | cons z rs =>
    show ∃ t segs,
      (match gapSegments (z :: rs) with
        | [] => [[y]]
        | seg :: segs =>
          if (z - y) / 60 > SESSION_BREAK_THRESHOLD_MINUTES then
            [y] :: seg :: segs
          else
            (y :: seg) :: segs) = (y :: t) :: segs
    cases h : gapSegments (z :: rs) with
    | nil => exact ⟨[], [], rfl⟩
    | cons seg segs =>
      by_cases hgap : (z - y) / 60 > SESSION_BREAK_THRESHOLD_MINUTES
      · exact ⟨[], seg :: segs, by simp [hgap]⟩
      · exact ⟨seg, segs, by simp [hgap]⟩

theorem activeMinutesLoop_eq_suffixSum (l : List Nat) :
    ∀ periodStart total,
      activeMinutesLoop periodStart total l = total + activeSuffixSum periodStart l := by
  induction l with
  | nil => intro ps total; simp [activeMinutesLoop, activeSuffixSum, gapSegments]
  | cons x rest ih =>
    intro ps total
    cases rest with
    | nil => simp [activeMinutesLoop, activeSuffixSum, gapSegments, segmentMinutes]
    | cons y rs =>
      obtain ⟨t, segs, hshape⟩ := gapSegments_cons_shape y rs
      by_cases hgap : (y - x) / 60 > SESSION_BREAK_THRESHOLD_MINUTES
      · rw [show activeMinutesLoop ps total (x :: y :: rs)
            = activeMinutesLoop y (total + max ((x - ps) / 60) 1) (y :: rs) by
              simp [activeMinutesLoop, hgap]]
        rw [ih y (total + max ((x - ps) / 60) 1)]
        have hsum : activeSuffixSum ps (x :: y :: rs)
            = max ((x - ps) / 60) 1 + activeSuffixSum y (y :: rs) := by
          unfold activeSuffixSum
          show (match gapSegments (x :: y :: rs) with
            | [] => 0
            | seg :: segs =>
              max ((seg.getLastD 0 - ps) / 60) 1 + (segs.map segmentMinutes).sum) = _
          rw [show gapSegments (x :: y :: rs) = [x] :: (y :: t) :: segs by
            simp [gapSegments, hshape, hgap]]
          rw [hshape]
          simp [segmentMinutes, Nat.add_assoc]
        rw [hsum]
        ring
      · rw [show activeMinutesLoop ps total (x :: y :: rs)
            = activeMinutesLoop ps total (y :: rs) by
              simp [activeMinutesLoop, hgap]]
        rw [ih ps total]
        have hsum : activeSuffixSum ps (x :: y :: rs) = activeSuffixSum ps (y :: rs) := by
          unfold activeSuffixSum
          show (match gapSegments (x :: y :: rs) with
            | [] => 0
            | seg :: segs =>
              max ((seg.getLastD 0 - ps) / 60) 1 + (segs.map segmentMinutes).sum) = _
          rw [show gapSegments (x :: y :: rs) = (x :: y :: t) :: segs by
            simp [gapSegments, hshape, hgap]]
          rw [hshape]
          simp [List.getLastD_cons]
        rw [hsum]

theorem activeSuffixSum_head (x : Nat) (rest : List Nat) :
    activeSuffixSum x (x :: rest) = ((gapSegments (x :: rest)).map segmentMinutes).sum := by
  obtain ⟨t, segs, hshape⟩ := gapSegments_cons_shape x rest
  unfold activeSuffixSum
  rw [hshape]
  simp [segmentMinutes]

theorem length_insertNat (x : Nat) (l : List Nat) :
    (insertNat x l).length = l.length + 1 := by
  induction l with
  | nil => rfl
  | cons y ys ih =>
    by_cases h : x ≤ y
    · simp [insertNat, h]
    · simp [insertNat, h, ih]

theorem length_sortNat (l : List Nat) : (sortNat l).length = l.length := by
  induction l with
  | nil => rfl
  | cons x xs ih => simp [sortNat, List.foldr] at ih ⊢; rw [length_insertNat, ih]

/-- C3. For every list of included timestamps (seconds), the session active
duration equals the spec's description: sort, segment at gaps exceeding 120
minutes, sum the per-period durations floored at one minute; a singleton
yields 1 minute, the empty list yields 0; the two concrete examples
`[10:00, 10:20]` and `[10:00, 10:20, 14:00, 14:30]` yield 20 and 50
minutes. -/
theorem calculate_session_active_minutes_spec :
    (∀ timestamps : List Nat,
        calculate_session_active_minutes timestamps = specSessionActiveMinutes timestamps)
      ∧ calculate_session_active_minutes [] = 0
      ∧ (∀ x : Nat, calculate_session_active_minutes [x] = 1)
      ∧ calculate_session_active_minutes [36000, 37200] = 20
      ∧ calculate_session_active_minutes [36000, 37200, 50400, 52200] = 50 := by
  refine ⟨?_, rfl, fun x => rfl, by decide, by decide⟩
  intro ts
  match hts : ts with
  | [] => rfl
  | [x] =>
    simp [calculate_session_active_minutes, specSessionActiveMinutes, sortNat,
      List.foldr, insertNat, gapSegments, segmentMinutes]
  | a :: b :: rest =>
    have hlen : (sortNat (a :: b :: rest)).length = rest.length + 2 := by
      rw [length_sortNat]; simp
    unfold calculate_session_active_minutes
    cases hs : sortNat (a :: b :: rest) with
    | nil => rw [hs] at hlen; simp at hlen
    | cons first r =>
      simp only []
      rw [activeMinutesLoop_eq_suffixSum, activeSuffixSum_head]
      unfold specSessionActiveMinutes
      rw [hs]
      simp

/-! ## Statistics aggregation (`commands/stats.rs`) -/

/-- `u32` narrowing modulus for the `as u32` casts applied to raw JSON
integers. -/
def U32MOD : Nat := 2 ^ 32

/-- `StatsMode` (stats.rs:27-31). -/
inductive StatsMode where
  | BillingTotal
  | ConversationOnly
  deriving Repr, BEq, DecidableEq

/-- `StatsMode::include_sidechain` (stats.rs:33-37). -/
def StatsMode.include_sidechain : StatsMode → Bool
  | .BillingTotal => true
  | .ConversationOnly => false

/-- `StatsProvider` (stats.rs:19-25). -/
inductive StatsProvider where
  | Claude
  | Codex
  | OpenCode
  deriving Repr, BEq, DecidableEq

/-- `is_core_message_type` (stats.rs:58-60). -/
def is_core_message_type (message_type : String) : Bool :=
  message_type == "user" || message_type == "assistant" || message_type == "system"

/-- `is_conversation_message_type` (stats.rs:62-64). -/
def is_conversation_message_type (message_type : String) : Bool :=
  message_type == "user" || message_type == "assistant"

/-- `is_non_message_noise_type` (stats.rs:66-71). -/
def is_non_message_noise_type (message_type : String) : Bool :=
  message_type == "progress" || message_type == "queue-operation"
    || message_type == "file-history-snapshot"

/-- `token_usage_has_token_fields` (stats.rs:73-78). -/
def token_usage_has_token_fields (usage : TokenUsage) : Bool :=
  usage.input_tokens.isSome || usage.output_tokens.isSome
    || usage.cache_creation_input_tokens.isSome || usage.cache_read_input_tokens.isSome

/-- `token_usage_totals` (stats.rs:80-93): the four counters with absent
fields as 0, and their total.  The four counters are below `2^32`, so the
`u64` total cannot overflow; it is an exact natural sum. -/
def token_usage_totals (usage : TokenUsage) : Nat × Nat × Nat × Nat × Nat :=
  let input_tokens := usage.input_tokens.getD 0
  let output_tokens := usage.output_tokens.getD 0
  let cache_creation_tokens := usage.cache_creation_input_tokens.getD 0
  let cache_read_tokens := usage.cache_read_input_tokens.getD 0
  let total_tokens := input_tokens + output_tokens + cache_creation_tokens + cache_read_tokens
  (input_tokens, output_tokens, cache_creation_tokens, cache_read_tokens, total_tokens)

/-- `should_include_stats_entry` (stats.rs:95-122): the single inclusion
predicate shared by session-, project- and global-scope statistics. -/
def should_include_stats_entry (message_type : String) (is_sidechain : Option Bool)
    (has_usage : Bool) (mode : StatsMode) : Bool :=
  if message_type == "summary" then false
  else if !mode.include_sidechain && is_sidechain.getD false then false
  else
    match mode with
    | .ConversationOnly => is_conversation_message_type message_type
    | .BillingTotal =>
      if is_core_message_type message_type then true
      else if is_non_message_noise_type message_type then has_usage
      else has_usage

/-- `apply_usage_fields_from_value` (stats.rs:248-279): each present
`u64` JSON counter is narrowed with `as u32` (modelled as `% 2^32`). -/
def apply_usage_fields_from_value (usage_obj : Json) (usage : TokenUsage) : TokenUsage :=
  let usage := match (usage_obj.get "input_tokens").bind Json.asNat with
    | some n => { usage with input_tokens := some (n % U32MOD) }
    | none => usage
  let usage := match (usage_obj.get "output_tokens").bind Json.asNat with
    | some n => { usage with output_tokens := some (n % U32MOD) }
    | none => usage
  let usage := match (usage_obj.get "cache_creation_input_tokens").bind Json.asNat with
    | some n => { usage with cache_creation_input_tokens := some (n % U32MOD) }
    | none => usage
  let usage := match (usage_obj.get "cache_read_input_tokens").bind Json.asNat with
    | some n => { usage with cache_read_input_tokens := some (n % U32MOD) }
    | none => usage
  match (usage_obj.get "service_tier").bind Json.asStr with
  | some tier => { usage with service_tier := some tier }
  | none => usage

/-- `extract_token_usage` (stats.rs:913-958): priority order
`message.usage`, then a `usage` object embedded in the content, then
`tool_use_result.usage`, then `tool_use_result.totalTokens` attributed to
output tokens for assistant records and input tokens otherwise. -/
def extract_token_usage (message : ClaudeMessage) : TokenUsage :=
  match message.usage with
  | some usage => usage
  | none =>
    let usage := TokenUsage.empty
    let usage := match message.content with
      | some content =>
        if content.isObj && (content.get "usage").isSome then
          match content.get "usage" with
          | some usage_obj => apply_usage_fields_from_value usage_obj usage
          | none => usage
        else usage
      | none => usage
    match message.tool_use_result with
    | some tool_result =>
      let usage := match tool_result.get "usage" with
        | some usage_obj => apply_usage_fields_from_value usage_obj usage
        | none => usage
      match (tool_result.get "totalTokens").bind Json.asNat with
      | some total_tokens =>
        if usage.input_tokens.isNone && usage.output_tokens.isNone then
          if message.message_type == "assistant" then
            { usage with output_tokens := some (total_tokens % U32MOD) }
          else
            { usage with input_tokens := some (total_tokens % U32MOD) }
        else usage
      | none => usage
    | none => usage

/-- `TokenDistribution` (models; reconstructed from the four `+=` sites in
stats.rs): the four token counters of an accumulator or summary. -/
structure TokenDistribution where
  input : Nat := 0
  output : Nat := 0
  cache_creation : Nat := 0
  cache_read : Nat := 0
  deriving Repr, BEq, DecidableEq

/-- `SessionFileStats` (stats.rs:382-397), the per-session-file accumulator.
The map-valued fields (`tool_usage`, `daily_stats`, `activity_data`,
`model_usage`) are omitted: the claims under verification only concern the
scalar token totals, the message count and the duration. -/
structure SessionFileStats where
  total_messages : Nat := 0
  total_tokens : Nat := 0
  token_distribution : TokenDistribution := {}
  session_duration_minutes : Nat := 0
  first_message : Option Nat := none
  last_message : Option Nat := none
  project_name : String := ""
  provider : StatsProvider := .Claude
  deriving Repr, BEq, DecidableEq

/-- `calculate_session_duration` (stats.rs:528-559), also inlined verbatim
at stats.rs:647-674: at least two timestamps trigger the sorted
gap-segmentation walk, exactly one yields 1 minute, none leaves the
accumulator's 0. -/
def durationOfTimestamps (timestamps : List Nat) : Nat :=
  if timestamps.length ≥ 2 then
    match sortNat timestamps with
    | [] => 0
    | first :: rest => activeMinutesLoop first 0 (first :: rest)
  else if timestamps.length = 1 then 1
  else 0

/-- One iteration of the message loop of
`build_global_session_file_stats_from_messages` (stats.rs:579-645): the
state is the accumulator plus the list of parsed timestamps.
`parseTs` is the oracle for `parse_timestamp_utc` (RFC3339 → seconds). -/
def buildGlobalStatsStep (parseTs : String → Option Nat) (mode : StatsMode)
    (acc : SessionFileStats × List Nat) (message : ClaudeMessage) :
    SessionFileStats × List Nat :=
  let usage := extract_token_usage message
  let has_usage := token_usage_has_token_fields usage
  if !should_include_stats_entry message.message_type message.is_sidechain has_usage mode then
    acc
  else
    let (stats, session_timestamps) := acc
    let (input_tokens, output_tokens, cache_creation_tokens, cache_read_tokens, tokens) :=
      token_usage_totals usage
    let stats := { stats with
      total_messages := stats.total_messages + 1
      total_tokens := stats.total_tokens + tokens
      token_distribution := {
        input := stats.token_distribution.input + input_tokens
        output := stats.token_distribution.output + output_tokens
        cache_creation := stats.token_distribution.cache_creation + cache_creation_tokens
        cache_read := stats.token_distribution.cache_read + cache_read_tokens } }
    match parseTs message.timestamp with
    | some timestamp =>
      let stats := { stats with
        first_message :=
          if stats.first_message.isNone || stats.first_message.any (fun f => timestamp < f) then
            some timestamp
          else stats.first_message
        last_message :=
          if stats.last_message.isNone || stats.last_message.any (fun l => l < timestamp) then
            some timestamp
          else stats.last_message }
      (stats, session_timestamps ++ [timestamp])
    | none => (stats, session_timestamps)

/-- `build_global_session_file_stats_from_messages` (stats.rs:561-677):
`None` on an empty message list, otherwise the accumulator folded over the
messages under the inclusion policy, with the session duration computed
from the collected timestamps.  (The per-model/tool/daily/activity maps are
omitted, see `SessionFileStats`.) -/
def build_global_session_file_stats_from_messages (parseTs : String → Option Nat)
    (provider : StatsProvider) (project_name : String) (messages : List ClaudeMessage)
    (mode : StatsMode) : Option SessionFileStats :=
  if messages.isEmpty then none
  else
    let init : SessionFileStats := { project_name := project_name, provider := provider }
    let (stats, session_timestamps) :=
      messages.foldl (buildGlobalStatsStep parseTs mode) (init, [])
    some { stats with session_duration_minutes := durationOfTimestamps session_timestamps }

/-- `GlobalStatsSummary` (models; reconstructed from the reduction in
`get_global_stats_summary`, stats.rs:2492-2590).  The list/map-valued
fields (`most_used_tools`, `provider_distribution`, `model_distribution`,
`top_projects`, daily/activity series) are omitted: the claims under
verification concern the scalar totals. -/
structure GlobalStatsSummary where
  total_projects : Nat := 0
  total_sessions : Nat := 0
  total_messages : Nat := 0
  total_tokens : Nat := 0
  total_session_duration_minutes : Nat := 0
  token_distribution : TokenDistribution := {}
  first_message : Option Nat := none
  last_message : Option Nat := none
  deriving Repr, BEq, DecidableEq

/-- The body of the reduction loop of `get_global_stats_summary`
(stats.rs:2507-2590), restricted to the scalar fields kept in
`GlobalStatsSummary`. -/
def globalSummaryStep (summary : GlobalStatsSummary) (stats : SessionFileStats) :
    GlobalStatsSummary :=
  { summary with
    total_messages := summary.total_messages + stats.total_messages
    total_tokens := summary.total_tokens + stats.total_tokens
    total_session_duration_minutes :=
      summary.total_session_duration_minutes + stats.session_duration_minutes
    token_distribution := {
      input := summary.token_distribution.input + stats.token_distribution.input
      output := summary.token_distribution.output + stats.token_distribution.output
      cache_creation :=
        summary.token_distribution.cache_creation + stats.token_distribution.cache_creation
      cache_read := summary.token_distribution.cache_read + stats.token_distribution.cache_read }
    first_message :=
      match summary.first_message, stats.first_message with
      | none, f => f
      | some g, some f => if f < g then some f else some g
      | some g, none => some g
    last_message :=
      match summary.last_message, stats.last_message with
      | none, l => l
      | some g, some l => if g < l then some l else some g
      | some g, none => some g }

/-- Phase 3 of `get_global_stats_summary` (stats.rs:2492-2590): start from
the default summary, record the project and session counts, and reduce all
per-session-file accumulators. -/
def get_global_stats_summary (project_count : Nat) (file_stats : List SessionFileStats) :
    GlobalStatsSummary :=
  let summary : GlobalStatsSummary :=
    { total_projects := project_count, total_sessions := file_stats.length }
  file_stats.foldl globalSummaryStep summary

theorem globalSummary_fold_totals (fs : List SessionFileStats) :
    ∀ init : GlobalStatsSummary,
      (fs.foldl globalSummaryStep init).total_tokens
          = init.total_tokens + (fs.map (·.total_tokens)).sum
        ∧ (fs.foldl globalSummaryStep init).token_distribution.input
          = init.token_distribution.input + (fs.map (·.token_distribution.input)).sum
        ∧ (fs.foldl globalSummaryStep init).token_distribution.output
          = init.token_distribution.output + (fs.map (·.token_distribution.output)).sum
        ∧ (fs.foldl globalSummaryStep init).token_distribution.cache_creation
          = init.token_distribution.cache_creation
            + (fs.map (·.token_distribution.cache_creation)).sum
        ∧ (fs.foldl globalSummaryStep init).token_distribution.cache_read
          = init.token_distribution.cache_read + (fs.map (·.token_distribution.cache_read)).sum := by
  induction fs with
  | nil => intro init; simp
  | cons s rest ih =>
    intro init
    obtain ⟨h1, h2, h3, h4, h5⟩ := ih (globalSummaryStep init s)
    refine ⟨?_, ?_, ?_, ?_, ?_⟩
    · rw [List.foldl_cons, h1]; simp only [List.map_cons, List.sum_cons, globalSummaryStep]; omega
    · rw [List.foldl_cons, h2]; simp only [List.map_cons, List.sum_cons, globalSummaryStep]; omega
    · rw [List.foldl_cons, h3]; simp only [List.map_cons, List.sum_cons, globalSummaryStep]; omega
    · rw [List.foldl_cons, h4]; simp only [List.map_cons, List.sum_cons, globalSummaryStep]; omega
    · rw [List.foldl_cons, h5]; simp only [List.map_cons, List.sum_cons, globalSummaryStep]; omega

/-- C1. For every collection of session files (given as provider, project
name and message list) and a fixed inclusion policy, the global summary's
total token count and its four token-distribution counters are exactly the
sums of the corresponding fields of the per-session-file accumulators
computed under that same policy. -/
theorem global_summary_totals_eq_sum_of_file_stats (parseTs : String → Option Nat)
    (mode : StatsMode) (project_count : Nat)
    (sessions : List (StatsProvider × String × List ClaudeMessage)) :
    (get_global_stats_summary project_count
          (sessions.filterMap (fun s =>
            build_global_session_file_stats_from_messages parseTs s.1 s.2.1 s.2.2 mode))).total_tokens
        = ((sessions.filterMap (fun s =>
            build_global_session_file_stats_from_messages parseTs s.1 s.2.1 s.2.2 mode)).map
            (·.total_tokens)).sum
      ∧ (get_global_stats_summary project_count
          (sessions.filterMap (fun s =>
            build_global_session_file_stats_from_messages parseTs s.1 s.2.1 s.2.2 mode))).token_distribution.input
        = ((sessions.filterMap (fun s =>
            build_global_session_file_stats_from_messages parseTs s.1 s.2.1 s.2.2 mode)).map
            (·.token_distribution.input)).sum
      ∧ (get_global_stats_summary project_count
          (sessions.filterMap (fun s =>
            build_global_session_file_stats_from_messages parseTs s.1 s.2.1 s.2.2 mode))).token_distribution.output
        = ((sessions.filterMap (fun s =>
            build_global_session_file_stats_from_messages parseTs s.1 s.2.1 s.2.2 mode)).map
            (·.token_distribution.output)).sum
      ∧ (get_global_stats_summary project_count
          (sessions.filterMap (fun s =>
            build_global_session_file_stats_from_messages parseTs s.1 s.2.1 s.2.2 mode))).token_distribution.cache_creation
        = ((sessions.filterMap (fun s =>
            build_global_session_file_stats_from_messages parseTs s.1 s.2.1 s.2.2 mode)).map
            (·.token_distribution.cache_creation)).sum
      ∧ (get_global_stats_summary project_count
          (sessions.filterMap (fun s =>
            build_global_session_file_stats_from_messages parseTs s.1 s.2.1 s.2.2 mode))).token_distribution.cache_read
        = ((sessions.filterMap (fun s =>
            build_global_session_file_stats_from_messages parseTs s.1 s.2.1 s.2.2 mode)).map
            (·.token_distribution.cache_read)).sum := by
  obtain ⟨h1, h2, h3, h4, h5⟩ :=
    globalSummary_fold_totals
      (sessions.filterMap (fun s =>
        build_global_session_file_stats_from_messages parseTs s.1 s.2.1 s.2.2 mode))
      { total_projects := project_count
        total_sessions :=
          (sessions.filterMap (fun s =>
            build_global_session_file_stats_from_messages parseTs s.1 s.2.1 s.2.2 mode)).length }
  refine ⟨?_, ?_, ?_, ?_, ?_⟩
  · simpa [get_global_stats_summary] using h1
  · simpa [get_global_stats_summary] using h2
  · simpa [get_global_stats_summary] using h3
  · simpa [get_global_stats_summary] using h4
  · simpa [get_global_stats_summary] using h5

/-! ### BillingTotal dominates ConversationOnly (C2) -/

/-- The total-token component of `token_usage_totals` for one message. -/
def messageTotalTokens (message : ClaudeMessage) : Nat :=
  (token_usage_totals (extract_token_usage message)).2.2.2.2

/-- Whether the statistics loops include this message under `mode`
(the common guard of stats.rs:582 and stats.rs:440). -/
def includedInStats (mode : StatsMode) (message : ClaudeMessage) : Bool :=
  should_include_stats_entry message.message_type message.is_sidechain
    (token_usage_has_token_fields (extract_token_usage message)) mode

/-- The exact token total a session's accumulator reaches under `mode`. -/
def sessionTokenSum (mode : StatsMode) (messages : List ClaudeMessage) : Nat :=
  ((messages.filter (includedInStats mode)).map messageTotalTokens).sum

theorem buildGlobalStatsStep_total_tokens_included (parseTs : String → Option Nat)
    (mode : StatsMode) (m : ClaudeMessage) (stats : SessionFileStats) (ts : List Nat)
    (hinc : includedInStats mode m = true) :
    (buildGlobalStatsStep parseTs mode (stats, ts) m).1.total_tokens
      = stats.total_tokens + messageTotalTokens m := by
  unfold buildGlobalStatsStep
  rw [if_neg (by simp [includedInStats] at hinc ⊢; exact hinc)]
  cases hts : parseTs m.timestamp <;> simp [hts, messageTotalTokens]

theorem buildGlobalStatsStep_not_included (parseTs : String → Option Nat)
    (mode : StatsMode) (m : ClaudeMessage) (acc : SessionFileStats × List Nat)
    (hinc : includedInStats mode m = false) :
    buildGlobalStatsStep parseTs mode acc m = acc := by
  unfold buildGlobalStatsStep
  rw [if_pos (by simp [includedInStats] at hinc ⊢; exact hinc)]

theorem buildGlobalStats_fold_total_tokens (parseTs : String → Option Nat) (mode : StatsMode)
    (messages : List ClaudeMessage) :
    ∀ (stats : SessionFileStats) (ts : List Nat),
      (messages.foldl (buildGlobalStatsStep parseTs mode) (stats, ts)).1.total_tokens
        = stats.total_tokens + sessionTokenSum mode messages := by
  induction messages with
  | nil => intro stats ts; simp [sessionTokenSum]
  | cons m rest ih =>
    intro stats ts
    by_cases hinc : includedInStats mode m
    · rcases hstep : buildGlobalStatsStep parseTs mode (stats, ts) m with ⟨s2, ts2⟩
      have htok : s2.total_tokens = stats.total_tokens + messageTotalTokens m := by
        have := buildGlobalStatsStep_total_tokens_included parseTs mode m stats ts hinc
        rw [hstep] at this
        exact this
      rw [List.foldl_cons, hstep, ih s2 ts2, htok]
      have hfilter : sessionTokenSum mode (m :: rest)
          = messageTotalTokens m + sessionTokenSum mode rest := by
        simp [sessionTokenSum, List.filter, hinc]
      rw [hfilter]
      ring
    · rw [List.foldl_cons,
        buildGlobalStatsStep_not_included parseTs mode m (stats, ts)
          (by simpa using hinc),
        ih stats ts]
      have hfilter : sessionTokenSum mode (m :: rest) = sessionTokenSum mode rest := by
        simp [sessionTokenSum, List.filter, hinc]
      rw [hfilter]

/-- The session accumulator's token total under a mode, with an absent
accumulator (empty message list) counting 0. -/
def accumulatedTotalTokens (parseTs : String → Option Nat) (provider : StatsProvider)
    (project_name : String) (messages : List ClaudeMessage) (mode : StatsMode) : Nat :=
  ((build_global_session_file_stats_from_messages parseTs provider project_name messages
      mode).map (·.total_tokens)).getD 0

theorem accumulatedTotalTokens_eq_sessionTokenSum (parseTs : String → Option Nat)
    (provider : StatsProvider) (project_name : String) (messages : List ClaudeMessage)
    (mode : StatsMode) :
    accumulatedTotalTokens parseTs provider project_name messages mode
      = if messages.isEmpty then 0 else sessionTokenSum mode messages := by
  unfold accumulatedTotalTokens build_global_session_file_stats_from_messages
  by_cases hempty : messages.isEmpty
  · simp [hempty]
  · rw [if_neg hempty, if_neg hempty]
    have h := buildGlobalStats_fold_total_tokens parseTs mode messages
      { project_name := project_name, provider := provider } []
    simpa using h

theorem should_include_conversation_imp_billing (message_type : String)
    (is_sidechain : Option Bool) (has_usage : Bool) :
    should_include_stats_entry message_type is_sidechain has_usage .ConversationOnly = true →
      should_include_stats_entry message_type is_sidechain has_usage .BillingTotal = true := by
  intro h
  unfold should_include_stats_entry at h ⊢
  by_cases hsum : message_type == "summary"
  · simp [hsum] at h
  · simp only [hsum, if_false, Bool.false_eq_true] at h ⊢
    by_cases hside : is_sidechain.getD false
    · simp [StatsMode.include_sidechain, hside] at h
    · simp only [StatsMode.include_sidechain, hside, Bool.not_true, Bool.not_false,
        Bool.false_and, Bool.true_and, Bool.and_false, if_false] at h ⊢
      simp only [is_conversation_message_type] at h
      have hcore : is_core_message_type message_type = true := by
        rcases Bool.or_eq_true_iff.mp h with hu | ha
        · simp [is_core_message_type, hu]
        · simp [is_core_message_type, ha]
      simp [hcore]

/-- C2. Every record included under `ConversationOnly` is included under
`BillingTotal`, and consequently for any message list the token total
accumulated under `BillingTotal` is at least the `ConversationOnly`
total. -/
theorem billing_total_dominates_conversation_only :
    (∀ (message_type : String) (is_sidechain : Option Bool) (has_usage : Bool),
        should_include_stats_entry message_type is_sidechain has_usage .ConversationOnly = true →
          should_include_stats_entry message_type is_sidechain has_usage .BillingTotal = true)
      ∧ ∀ (parseTs : String → Option Nat) (provider : StatsProvider) (project_name : String)
          (messages : List ClaudeMessage),
          accumulatedTotalTokens parseTs provider project_name messages .ConversationOnly
            ≤ accumulatedTotalTokens parseTs provider project_name messages .BillingTotal := by
  refine ⟨should_include_conversation_imp_billing, ?_⟩
  intro parseTs provider project_name messages
  rw [accumulatedTotalTokens_eq_sessionTokenSum, accumulatedTotalTokens_eq_sessionTokenSum]
  by_cases hempty : messages.isEmpty
  · simp [hempty]
  · rw [if_neg hempty, if_neg hempty]
    clear hempty
    induction messages with
    | nil => simp [sessionTokenSum]
    | cons m rest ih =>
      by_cases hconv : includedInStats .ConversationOnly m
      · have hbill : includedInStats .BillingTotal m := by
          exact should_include_conversation_imp_billing _ _ _ hconv
        have h1 : sessionTokenSum .ConversationOnly (m :: rest)
            = messageTotalTokens m + sessionTokenSum .ConversationOnly rest := by
          simp [sessionTokenSum, List.filter, hconv]
        have h2 : sessionTokenSum .BillingTotal (m :: rest)
            = messageTotalTokens m + sessionTokenSum .BillingTotal rest := by
          simp [sessionTokenSum, List.filter, hbill]
        rw [h1, h2]
        exact Nat.add_le_add_left ih _
      · have h1 : sessionTokenSum .ConversationOnly (m :: rest)
            = sessionTokenSum .ConversationOnly rest := by
          simp [sessionTokenSum, List.filter, hconv]
        rw [h1]
        by_cases hbill : includedInStats .BillingTotal m
        · have h2 : sessionTokenSum .BillingTotal (m :: rest)
              = messageTotalTokens m + sessionTokenSum .BillingTotal rest := by
            simp [sessionTokenSum, List.filter, hbill]
          rw [h2]
          exact le_trans ih (Nat.le_add_left _ _)
        · have h2 : sessionTokenSum .BillingTotal (m :: rest)
              = sessionTokenSum .BillingTotal rest := by
            simp [sessionTokenSum, List.filter, hbill]
          rw [h2]
          exact ih

/-- Witness for C2 at a concrete record and message list. -/
theorem billing_total_dominates_conversation_only_witness :
    should_include_stats_entry "user" none false .BillingTotal = true
      ∧ accumulatedTotalTokens (fun _ => none) .Claude "p" [] .ConversationOnly
        ≤ accumulatedTotalTokens (fun _ => none) .Claude "p" [] .BillingTotal := by
  refine ⟨billing_total_dominates_conversation_only.1 "user" none false (by decide), ?_⟩
  exact billing_total_dominates_conversation_only.2 (fun _ => none) .Claude "p" []

/-! ## Search filters and filter validation (`commands/session/search.rs`)

RFC3339 parsing (`chrono::DateTime::parse_from_rfc3339` normalized to UTC)
is modelled by an oracle `parseDate : String → Option Int` (seconds); all
theorems quantify over it. -/

mutual

/-- `search_in_value` (search.rs:23-30): recursive case-insensitive
substring search through a JSON value (the query is already lowercased by
the callers). -/
def search_in_value (value : Json) (query : String) : Bool :=
  match value with
  | .str s => strContains s.toLower query
  | .arr elems => searchInValueList elems query
  | .obj fields => searchInValueFields fields query
  | _ => false

/-- `arr.iter().any(...)` inside `search_in_value`. -/
def searchInValueList : List Json → String → Bool
  | [], _ => false
  | item :: rest, query => search_in_value item query || searchInValueList rest query

/-- `obj.values().any(...)` inside `search_in_value`. -/
def searchInValueFields : List (String × Json) → String → Bool
  | [], _ => false
  | (_, val) :: rest, query => search_in_value val query || searchInValueFields rest query

end

/-- `has_tool_calls` (search.rs:152-167). -/
def has_tool_calls (message : ClaudeMessage) : Bool :=
  message.tool_use.isSome || message.tool_use_result.isSome ||
    ((message.content.bind Json.asArr).map (fun arr =>
      arr.any (fun item =>
        ((item.get "type").bind Json.asStr) == some "tool_use"
          || ((item.get "type").bind Json.asStr) == some "tool_result"))).getD false

/-- `has_errors` (search.rs:169-182). -/
def has_errors (message : ClaudeMessage) : Bool :=
  message.message_type == "error"
    || message.level == some "error"
    || (message.stop_reason_system.map (fun s => strContains s.toLower "error")).getD false
    || (message.content.map (fun v => search_in_value v "error")).getD false

/-- `has_file_changes` (search.rs:184-203): a `tool_use` block naming one
of the file-mutating tools. -/
def has_file_changes (message : ClaudeMessage) : Bool :=
  match message.content.bind Json.asArr with
  | none => false
  | some content =>
    content.any (fun item =>
      if ((item.get "type").bind Json.asStr) != some "tool_use" then false
      else
        match (item.get "name").bind Json.asStr with
        | some "Write" | some "Edit" | some "MultiEdit" | some "NotebookEdit" => true
        | _ => false)

/-- `parse_filter_date` (search.rs:205-211). -/
def parse_filter_date (parseDate : String → Option Int) (value : Json) : Option Int :=
  value.asStr.bind parseDate

mutual

/-- `serde_json::Value::to_string` (string escaping inside rendered
literals is not modelled; no claim depends on it). -/
def Json.render : Json → String
  | .null => "null"
  | .bool true => "true"
  | .bool false => "false"
  | .num n => toString n
  | .str s => "\"" ++ s ++ "\""
  | .arr elems => "[" ++ Json.renderList elems ++ "]"
  | .obj fields => "\x7b" ++ Json.renderFields fields ++ "\x7d"

def Json.renderList : List Json → String
  | [] => ""
  | [item] => Json.render item
  | item :: rest => Json.render item ++ "," ++ Json.renderList rest

def Json.renderFields : List (String × Json) → String
  | [] => ""
  | [(key, val)] => "\"" ++ key ++ "\":" ++ Json.render val
  | (key, val) :: rest => "\"" ++ key ++ "\":" ++ Json.render val ++ "," ++ Json.renderFields rest

end

/-- `filter_value_to_string` (search.rs:213-218). -/
def filter_value_to_string (value : Json) : String :=
  (value.asStr).getD value.render

/-- `validate_search_filters` (search.rs:220-257): reject a `dateRange`
that is not a two-element array of RFC3339 datetimes with start ≤ end. -/
def validate_search_filters (parseDate : String → Option Int) (filters : Json) :
    Except String Unit :=
  match filters with
  | .obj _ =>
    match (filters.get "dateRange").bind Json.asArr with
    | none => .ok ()
    | some date_range =>
      match date_range with
      | [d0, d1] =>
        let start_raw := filter_value_to_string d0
        let end_raw := filter_value_to_string d1
        match parse_filter_date parseDate d0 with
        | none => .error ("Invalid dateRange start: " ++ start_raw
            ++ " (expected RFC3339 datetime)")
        | some start_at =>
          match parse_filter_date parseDate d1 with
          | none => .error ("Invalid dateRange end: " ++ end_raw
              ++ " (expected RFC3339 datetime)")
          | some end_at =>
            if end_at < start_at then
              .error ("Invalid dateRange filter: start (" ++ start_raw
                ++ ") is after end (" ++ end_raw ++ ")")
            else .ok ()
      | other => .error ("Invalid dateRange filter: expected [start, end], got "
          ++ toString other.length ++ " item(s)")
  | _ => .ok ()

/-- `matches_filters` (search.rs:259-331). -/
def matches_filters (parseDate : String → Option Int) (message : ClaudeMessage)
    (filters : Json) : Bool :=
  match filters with
  | .obj _ =>
    (match (filters.get "messageType").bind Json.asStr with
      | some message_type => message_type == "all" || message.message_type == message_type
      | none => true)
    && (match (filters.get "projects").bind Json.asArr with
      | some projects =>
        let selected := projects.filterMap Json.asStr
        if selected.isEmpty then true
        else
          match message.project_name with
          | some project_name => selected.contains project_name
          | none => false
      | none => true)
    && (match (filters.get "hasToolCalls").bind Json.asBool with
      | some flag => has_tool_calls message == flag
      | none => true)
    && (match (filters.get "hasErrors").bind Json.asBool with
      | some flag => has_errors message == flag
      | none => true)
    && (match (filters.get "hasFileChanges").bind Json.asBool with
      | some flag => has_file_changes message == flag
      | none => true)
    && (match (filters.get "dateRange").bind Json.asArr with
      | some date_range =>
        match date_range with
        | [d0, d1] =>
          (match parse_filter_date parseDate d0, parse_filter_date parseDate d1 with
            | some start_at, some end_at =>
              match parseDate message.timestamp with
              | some ts => decide (start_at ≤ ts) && decide (ts ≤ end_at)
              | none => false
            | _, _ => false)
        | _ => true
      | none => true)
  | _ => true

/-- `apply_search_filters` (search.rs:333-341). -/
def apply_search_filters (parseDate : String → Option Int) (messages : List ClaudeMessage)
    (filters : Json) : List ClaudeMessage :=
  messages.filter (fun message => matches_filters parseDate message filters)

/-- Lexicographic comparison of code-point lists; models Rust's `str`
ordering (byte-lexicographic, which agrees with code-point order for valid
UTF-8). -/
def charListCompare : List Char → List Char → Ordering
  | [], [] => .eq
  | [], _ :: _ => .lt
  | _ :: _, [] => .gt
  | a :: as1, b :: bs =>
    match compare a.toNat b.toNat with
    | .eq => charListCompare as1 bs
    | ord => ord

/-- Rust `String::cmp`. -/
def strCompare (a b : String) : Ordering :=
  charListCompare a.data b.data

/-- Stable insertion of `x` into `l` under a three-way comparator: `x` is
placed before the first element that compares greater than it, after equal
elements.  A stable sort built from this agrees with Rust's stable
`sort_by` whenever the comparator is a total preorder, which holds for all
comparators modelled here. -/
def insertByCmp (cmp : α → α → Ordering) (x : α) : List α → List α
  | [] => [x]
  | y :: ys =>
    match cmp x y with
    | .lt => x :: y :: ys
    | _ => y :: insertByCmp cmp x ys

/-- Stable sort by a three-way comparator; models `Vec::sort_by`. -/
def sortByCmp (cmp : α → α → Ordering) (l : List α) : List α :=
  l.foldl (fun acc x => insertByCmp cmp x acc) []

/-- `search_messages` (search.rs:343-396).  File-system effects are
oracles: `projectsPathExists` models the `projects_path.exists()` check and
`scanned` the concatenation of the per-file `search_in_file` results
(already restricted to query matches).  The claim under verification (C5)
only depends on the validation happening before either oracle is
consulted. -/
def search_messages (parseDate : String → Option Int) (filters : Json) (limit : Option Nat)
    (projectsPathExists : Bool) (scanned : List ClaudeMessage) :
    Except String (List ClaudeMessage) :=
  let max_results := limit.getD 100
  match validate_search_filters parseDate filters with
  | .error e => .error e
  | .ok () =>
    if !projectsPathExists then .ok []
    else
      .ok (((sortByCmp (fun a b => strCompare b.timestamp a.timestamp)
        (apply_search_filters parseDate scanned filters))).take max_results)

/-- C5. A `dateRange` filter whose bounds form a two-element array with a
bound that does not parse as RFC3339, or whose start is after its end,
makes the search return a validation error — for every possible file-system
content, i.e. before any scanning — and in particular never an `Ok` result
list. -/
theorem search_messages_rejects_invalid_date_range (parseDate : String → Option Int)
    (filters : Json) (d0 d1 : Json)
    (hdr : (filters.get "dateRange").bind Json.asArr = some [d0, d1])
    (hobj : filters.isObj = true)
    (hbad : parse_filter_date parseDate d0 = none
      ∨ parse_filter_date parseDate d1 = none
      ∨ ∃ start_at end_at, parse_filter_date parseDate d0 = some start_at
          ∧ parse_filter_date parseDate d1 = some end_at ∧ end_at < start_at) :
    ∀ (limit : Option Nat) (projectsPathExists : Bool) (scanned : List ClaudeMessage),
      (∃ e, search_messages parseDate filters limit projectsPathExists scanned
          = Except.error e)
        ∧ ∀ result, search_messages parseDate filters limit projectsPathExists scanned
            ≠ Except.ok result := by
  intro limit projectsPathExists scanned
  have hnotok : ∀ u : Unit, validate_search_filters parseDate filters ≠ .ok u := by
    intro u hv
    unfold validate_search_filters at hv
    cases filters with
    | obj fields =>
      rcases hbad with h0 | h1 | ⟨s, e, hs, he, hlt⟩
      · simp [hdr, h0] at hv
      · cases hp0 : parse_filter_date parseDate d0 with
        | none => simp [hdr, hp0] at hv
        | some s => simp [hdr, hp0, h1] at hv
      · simp [hdr, hs, he, hlt] at hv
    | null => simp [Json.isObj] at hobj
    | bool b => simp [Json.isObj] at hobj
    | num n => simp [Json.isObj] at hobj
    | str s => simp [Json.isObj] at hobj
    | arr elems => simp [Json.isObj] at hobj
  cases hv : validate_search_filters parseDate filters with
  | ok u => exact absurd hv (hnotok u)
  | error e =>
    refine ⟨⟨e, ?_⟩, ?_⟩
    · unfold search_messages
      rw [hv]
    · intro result
      unfold search_messages
      rw [hv]
      intro hcontra
      exact Except.noConfusion hcontra

/-- Witness for C5: a concrete filter with a non-parseable start bound is
rejected whatever the file system contains. -/
theorem search_messages_rejects_invalid_date_range_witness :
    (∃ e, search_messages (fun s => if s = "2026-02-20T00:00:00Z" then some 0 else none)
        (Json.obj [("dateRange",
          Json.arr [Json.str "invalid-date", Json.str "2026-02-20T00:00:00Z"])])
        none true [] = Except.error e)
      ∧ ∀ result, search_messages (fun s => if s = "2026-02-20T00:00:00Z" then some 0 else none)
          (Json.obj [("dateRange",
            Json.arr [Json.str "invalid-date", Json.str "2026-02-20T00:00:00Z"])])
          none true [] ≠ Except.ok result :=
  search_messages_rejects_invalid_date_range
    (fun s => if s = "2026-02-20T00:00:00Z" then some 0 else none)
    (Json.obj [("dateRange",
      Json.arr [Json.str "invalid-date", Json.str "2026-02-20T00:00:00Z"])])
    (Json.str "invalid-date") (Json.str "2026-02-20T00:00:00Z")
    (by rfl) (by rfl)
    (Or.inl (by simp [parse_filter_date, Json.asStr]))
    none true []

/-! ## Tool-result merging (`commands/multi_provider.rs`) -/

/-- `has_matching_tool_use` (multi_provider.rs:289-301): an assistant
message whose content array holds a `tool_use` block with the given id. -/
def has_matching_tool_use (msg : ClaudeMessage) (tool_use_id : String) : Bool :=
  if msg.message_type != "assistant" then false
  else
    match msg.content.bind Json.asArr with
    | none => false
    | some arr =>
      arr.any (fun item =>
        ((item.get "type").bind Json.asStr) == some "tool_use"
          && ((item.get "id").bind Json.asStr) == some tool_use_id)

/-- `append_content_block` (multi_provider.rs:303-308). -/
def append_content_block (msg : ClaudeMessage) (block : Json) : ClaudeMessage :=
  match msg.content with
  | some (Json.arr arr) => { msg with content := some (Json.arr (arr ++ [block])) }
  | _ => { msg with content := some (Json.arr [block]) }

/-- The backward scan `for prev in merged.iter_mut().rev()` of
multi_provider.rs:261-267: append the block to the last (nearest prior)
message matching the id, or report that none matches. -/
def appendToLastMatching (merged : List ClaudeMessage) (tool_use_id : String) (block : Json) :
    Option (List ClaudeMessage) :=
  match merged with
  | [] => none
  | m :: rest =>
    match appendToLastMatching rest tool_use_id block with
    | some rest2 => some (m :: rest2)
    | none =>
      if has_matching_tool_use m tool_use_id then
        some (append_content_block m block :: rest)
      else none

/-- A `tool_result`-typed content block. -/
def isToolResultBlock (block : Json) : Bool :=
  ((block.get "type").bind Json.asStr) == some "tool_result"

/-- The inner block loop of `merge_tool_execution_messages`
(multi_provider.rs:248-272); state: already-accepted output, remaining
blocks of the current message, whether a `tool_result` block was seen. -/
def processContentBlocks (merged : List ClaudeMessage) (remaining : List Json) (saw : Bool) :
    List Json → List ClaudeMessage × List Json × Bool
  | [] => (merged, remaining, saw)
  | block :: rest =>
    if !isToolResultBlock block then
      processContentBlocks merged (remaining ++ [block]) saw rest
    else
      match (block.get "tool_use_id").bind Json.asStr with
      | none => processContentBlocks merged (remaining ++ [block]) true rest
      | some tool_use_id =>
        match appendToLastMatching merged tool_use_id block with
        | some merged2 => processContentBlocks merged2 remaining true rest
        | none => processContentBlocks merged (remaining ++ [block]) true rest

/-- One iteration of the message loop of `merge_tool_execution_messages`
(multi_provider.rs:234-284). -/
def mergeStep (merged : List ClaudeMessage) (msg : ClaudeMessage) : List ClaudeMessage :=
  if msg.message_type != "user" then merged ++ [msg]
  else
    match msg.content.bind Json.asArr with
    | none => merged ++ [msg]
    | some content_arr =>
      let (merged2, remaining_blocks, saw_tool_result) :=
        processContentBlocks merged [] false content_arr
      if !saw_tool_result then merged2 ++ [msg]
      else if remaining_blocks.isEmpty then merged2
      else merged2 ++ [{ msg with content := some (Json.arr remaining_blocks) }]

/-- `merge_tool_execution_messages` (multi_provider.rs:231-287). -/
def merge_tool_execution_messages (messages : List ClaudeMessage) : List ClaudeMessage :=
  messages.foldl mergeStep []

/-! Spec-side description of the merger, for the refinement theorem. -/

/-- Modelled from the spec: the index of the nearest prior message (the
greatest index in the already-accepted output) that is an assistant message
containing a matching `tool_use` block. -/
def specNearestMatch : List ClaudeMessage → String → Option Nat
  | [], _ => none
  | m :: rest, tool_use_id =>
    match specNearestMatch rest tool_use_id with
    | some i => some (i + 1)
    | none => if has_matching_tool_use m tool_use_id then some 0 else none

/-- Modelled from the spec: append the result block to the content array of
the message at position `i` of the accepted output. -/
def specAppendAt (accepted : List ClaudeMessage) (i : Nat) (block : Json) :
    List ClaudeMessage :=
  match accepted[i]? with
  | some m => accepted.set i (append_content_block m block)
  | none => accepted

/-- Modelled from the spec: the block loop, with the backward search
expressed through `specNearestMatch`/`specAppendAt`. -/
def specProcessBlocks (merged : List ClaudeMessage) (remaining : List Json) (saw : Bool) :
    List Json → List ClaudeMessage × List Json × Bool
  | [] => (merged, remaining, saw)
  | block :: rest =>
    if !isToolResultBlock block then
      specProcessBlocks merged (remaining ++ [block]) saw rest
    else
      match (block.get "tool_use_id").bind Json.asStr with
      | none => specProcessBlocks merged (remaining ++ [block]) true rest
      | some tool_use_id =>
        match specNearestMatch merged tool_use_id with
        | some i => specProcessBlocks (specAppendAt merged i block) remaining true rest
        | none => specProcessBlocks merged (remaining ++ [block]) true rest

/-- Modelled from the spec: one message of the merge — a user message with
a block array has its `tool_result` blocks folded backward into the
accepted output, the unmerged blocks are re-emitted in their original
order, and a fully merged message disappears; all other messages are
accepted unchanged. -/
def specMergeStep (merged : List ClaudeMessage) (msg : ClaudeMessage) : List ClaudeMessage :=
  if msg.message_type != "user" then merged ++ [msg]
  else
    match msg.content.bind Json.asArr with
    | none => merged ++ [msg]
    | some content_arr =>
      let (merged2, remaining_blocks, saw_tool_result) :=
        specProcessBlocks merged [] false content_arr
      if !saw_tool_result then merged2 ++ [msg]
      else if remaining_blocks.isEmpty then merged2
      else merged2 ++ [{ msg with content := some (Json.arr remaining_blocks) }]

/-- Modelled from the spec: the whole merge pass. -/
def specMerge (messages : List ClaudeMessage) : List ClaudeMessage :=
  messages.foldl specMergeStep []

/-- The number of `tool_result` blocks carried by one message's content
array. -/
def msgToolResultCount (msg : ClaudeMessage) : Nat :=
  ((msg.content.bind Json.asArr).map (List.countP isToolResultBlock)).getD 0

/-- The number of `tool_result` blocks across a whole message list. -/
def totalToolResultCount (messages : List ClaudeMessage) : Nat :=
  (messages.map msgToolResultCount).sum

theorem specAppendAt_cons_succ (m : ClaudeMessage) (l : List ClaudeMessage) (i : Nat)
    (block : Json) : specAppendAt (m :: l) (i + 1) block = m :: specAppendAt l i block := by
  unfold specAppendAt
  rw [List.getElem?_cons_succ]
  cases l[i]? with
  | none => rfl
  | some x => simp

theorem specAppendAt_cons_zero (m : ClaudeMessage) (l : List ClaudeMessage) (block : Json) :
    specAppendAt (m :: l) 0 block = append_content_block m block :: l := by
  unfold specAppendAt
  simp

theorem appendToLastMatching_eq_spec (tool_use_id : String) (block : Json) :
    ∀ merged : List ClaudeMessage,
      appendToLastMatching merged tool_use_id block
        = (specNearestMatch merged tool_use_id).map (fun i => specAppendAt merged i block) := by
  intro merged
  induction merged with
  | nil => rfl
  | cons m rest ih =>
    unfold appendToLastMatching specNearestMatch
    rw [ih]
    cases h : specNearestMatch rest tool_use_id with
    | some i => simp [specAppendAt_cons_succ]
    | none =>
      by_cases hm : has_matching_tool_use m tool_use_id
      · simp [hm, specAppendAt_cons_zero]
      · simp [hm]

theorem specNearestMatch_none_no_match (tool_use_id : String) :
    ∀ merged : List ClaudeMessage, specNearestMatch merged tool_use_id = none →
      ∀ (j : Nat) (m : ClaudeMessage), merged[j]? = some m →
        has_matching_tool_use m tool_use_id = false := by
  intro merged
  induction merged with
  | nil => intro _ j m hj; simp at hj
  | cons x rest ih =>
    intro hnone j m hj
    unfold specNearestMatch at hnone
    cases h : specNearestMatch rest tool_use_id with
    | some i => rw [h] at hnone; simp at hnone
    | none =>
      rw [h] at hnone
      by_cases hx : has_matching_tool_use x tool_use_id
      · rw [if_pos hx] at hnone; simp at hnone
      · cases j with
        | zero =>
          rw [List.getElem?_cons_zero] at hj
          cases hj
          simpa using hx
        | succ j2 =>
          rw [List.getElem?_cons_succ] at hj
          exact ih h j2 m hj

theorem specNearestMatch_some_char (tool_use_id : String) :
    ∀ (merged : List ClaudeMessage) (i : Nat),
      specNearestMatch merged tool_use_id = some i →
        (∃ m, merged[i]? = some m ∧ has_matching_tool_use m tool_use_id = true)
          ∧ ∀ (j : Nat) (m : ClaudeMessage), i < j → merged[j]? = some m →
              has_matching_tool_use m tool_use_id = false := by
  intro merged
  induction merged with
  | nil => intro i h; simp [specNearestMatch] at h
  | cons x rest ih =>
    intro i h
    unfold specNearestMatch at h
    cases hrest : specNearestMatch rest tool_use_id with
    | some k =>
      rw [hrest] at h
      simp only [Option.some.injEq] at h
      subst h
      obtain ⟨⟨m, hm, hmatch⟩, hnomatch⟩ := ih k hrest
      refine ⟨⟨m, by simpa using hm, hmatch⟩, ?_⟩
      intro j m2 hlt hj
      cases j with
      | zero => omega
      | succ j2 =>
        rw [List.getElem?_cons_succ] at hj
        exact hnomatch j2 m2 (by omega) hj
    | none =>
      rw [hrest] at h
      by_cases hx : has_matching_tool_use x tool_use_id
      · rw [if_pos hx] at h
        simp only [Option.some.injEq] at h
        subst h
        refine ⟨⟨x, by simp, hx⟩, ?_⟩
        intro j m2 hlt hj
        cases j with
        | zero => omega
        | succ j2 =>
          rw [List.getElem?_cons_succ] at hj
          exact specNearestMatch_none_no_match tool_use_id rest hrest j2 m2 hj
      · rw [if_neg hx] at h
        simp at h

theorem processContentBlocks_eq_spec :
    ∀ (blocks : List Json) (merged : List ClaudeMessage) (remaining : List Json) (saw : Bool),
      processContentBlocks merged remaining saw blocks
        = specProcessBlocks merged remaining saw blocks := by
  intro blocks
  induction blocks with
  | nil => intro merged remaining saw; rfl
  | cons block rest ih =>
    intro merged remaining saw
    unfold processContentBlocks specProcessBlocks
    by_cases htr : isToolResultBlock block
    · simp only [htr, Bool.not_true, Bool.false_eq_true, if_false]
      cases hid : (block.get "tool_use_id").bind Json.asStr with
      | none => exact ih _ _ _
      | some tool_use_id =>
        dsimp only
        rw [appendToLastMatching_eq_spec]
        cases hnear : specNearestMatch merged tool_use_id with
        | some i => dsimp only; exact ih _ _ _
        | none => dsimp only; exact ih _ _ _
    · simp only [htr]
      simp only [Bool.not_false, if_true]
      exact ih _ _ _

theorem mergeStep_eq_spec (merged : List ClaudeMessage) (msg : ClaudeMessage) :
    mergeStep merged msg = specMergeStep merged msg := by
  unfold mergeStep specMergeStep
  by_cases ht : msg.message_type != "user"
  · rw [if_pos ht, if_pos ht]
  · rw [if_neg ht, if_neg ht]
    cases harr : msg.content.bind Json.asArr with
    | none => rfl
    | some content_arr =>
      dsimp only
      rw [processContentBlocks_eq_spec]

theorem merge_eq_specMerge (messages : List ClaudeMessage) :
    merge_tool_execution_messages messages = specMerge messages := by
  unfold merge_tool_execution_messages specMerge
  have h : mergeStep = specMergeStep := by
    funext merged msg
    exact mergeStep_eq_spec merged msg
  rw [h]

theorem content_bind_asArr_eq (m : ClaudeMessage) (arr : List Json)
    (h : m.content.bind Json.asArr = some arr) : m.content = some (Json.arr arr) := by
  cases hc : m.content with
  | none => rw [hc] at h; simp at h
  | some j =>
    rw [hc] at h
    cases j <;> simp [Json.asArr] at h
    subst h
    rfl

theorem count_append_content_block (m : ClaudeMessage) (block : Json) (tool_use_id : String)
    (hm : has_matching_tool_use m tool_use_id = true) :
    msgToolResultCount (append_content_block m block)
      = msgToolResultCount m + (if isToolResultBlock block then 1 else 0) := by
  unfold has_matching_tool_use at hm
  by_cases ht : m.message_type != "assistant"
  · rw [if_pos ht] at hm; simp at hm
  · rw [if_neg ht] at hm
    cases harr : m.content.bind Json.asArr with
    | none => rw [harr] at hm; simp at hm
    | some arr =>
      have hc := content_bind_asArr_eq m arr harr
      unfold append_content_block msgToolResultCount
      rw [hc]
      simp [Json.asArr, List.countP_append, isToolResultBlock, List.countP_cons]

theorem appendToLastMatching_count (tool_use_id : String) (block : Json) :
    ∀ (merged merged2 : List ClaudeMessage),
      appendToLastMatching merged tool_use_id block = some merged2 →
        totalToolResultCount merged2
          = totalToolResultCount merged + (if isToolResultBlock block then 1 else 0) := by
  intro merged
  induction merged with
  | nil => intro merged2 h; simp [appendToLastMatching] at h
  | cons m rest ih =>
    intro merged2 h
    unfold appendToLastMatching at h
    cases hrest : appendToLastMatching rest tool_use_id block with
    | some rest2 =>
      rw [hrest] at h
      simp only [Option.some.injEq] at h
      subst h
      have := ih rest2 hrest
      simp [totalToolResultCount] at this ⊢
      omega
    | none =>
      rw [hrest] at h
      by_cases hm : has_matching_tool_use m tool_use_id
      · rw [if_pos hm] at h
        simp only [Option.some.injEq] at h
        subst h
        have := count_append_content_block m block tool_use_id hm
        simp [totalToolResultCount] at this ⊢
        omega
      · rw [if_neg hm] at h
        simp at h

theorem processContentBlocks_count :
    ∀ (blocks : List Json) (merged : List ClaudeMessage) (remaining : List Json) (saw : Bool),
      totalToolResultCount (processContentBlocks merged remaining saw blocks).1
          + (processContentBlocks merged remaining saw blocks).2.1.countP isToolResultBlock
        = totalToolResultCount merged + remaining.countP isToolResultBlock
          + blocks.countP isToolResultBlock := by
  intro blocks
  induction blocks with
  | nil => intro merged remaining saw; simp [processContentBlocks]
  | cons block rest ih =>
    intro merged remaining saw
    unfold processContentBlocks
    by_cases htr : isToolResultBlock block
    · simp only [htr, Bool.not_true, Bool.false_eq_true, if_false]
      cases hid : (block.get "tool_use_id").bind Json.asStr with
      | none =>
        dsimp only
        rw [ih]
        simp [List.countP_append, List.countP_cons, htr]
        omega
      | some tool_use_id =>
        dsimp only
        cases happ : appendToLastMatching merged tool_use_id block with
        | some merged2 =>
          dsimp only
          rw [ih]
          have hc := appendToLastMatching_count tool_use_id block merged merged2 happ
          rw [hc, if_pos htr]
          simp [List.countP_cons, htr]
          omega
        | none =>
          dsimp only
          rw [ih]
          simp [List.countP_append, List.countP_cons, htr]
          omega
    · simp only [htr]
      simp only [Bool.not_false, if_true]
      rw [ih]
      simp [List.countP_append, List.countP_cons, htr]

theorem processContentBlocks_saw_true :
    ∀ (blocks : List Json) (merged : List ClaudeMessage) (remaining : List Json),
      (processContentBlocks merged remaining true blocks).2.2 = true := by
  intro blocks
  induction blocks with
  | nil => intro merged remaining; rfl
  | cons block rest ih =>
    intro merged remaining
    unfold processContentBlocks
    by_cases htr : isToolResultBlock block
    · simp only [htr, Bool.not_true, Bool.false_eq_true, if_false]
      cases hid : (block.get "tool_use_id").bind Json.asStr with
      | none => dsimp only; exact ih _ _
      | some tool_use_id =>
        dsimp only
        cases happ : appendToLastMatching merged tool_use_id block with
        | some merged2 => dsimp only; exact ih _ _
        | none => dsimp only; exact ih _ _
    · simp only [htr]
      simp only [Bool.not_false, if_true]
      exact ih _ _

theorem processContentBlocks_saw_false :
    ∀ (blocks : List Json) (merged : List ClaudeMessage) (remaining : List Json),
      (processContentBlocks merged remaining false blocks).2.2 = false →
        processContentBlocks merged remaining false blocks
          = (merged, remaining ++ blocks, false) := by
  intro blocks
  induction blocks with
  | nil => intro merged remaining _; simp [processContentBlocks]
  | cons block rest ih =>
    intro merged remaining hsaw
    unfold processContentBlocks at hsaw ⊢
    by_cases htr : isToolResultBlock block
    · exfalso
      simp only [htr, Bool.not_true, Bool.false_eq_true, if_false] at hsaw
      cases hid : (block.get "tool_use_id").bind Json.asStr with
      | none =>
        rw [hid] at hsaw
        dsimp only at hsaw
        rw [processContentBlocks_saw_true] at hsaw
        exact Bool.noConfusion hsaw
      | some tool_use_id =>
        rw [hid] at hsaw
        dsimp only at hsaw
        cases happ : appendToLastMatching merged tool_use_id block with
        | some merged2 =>
          rw [happ] at hsaw
          dsimp only at hsaw
          rw [processContentBlocks_saw_true] at hsaw
          exact Bool.noConfusion hsaw
        | none =>
          rw [happ] at hsaw
          dsimp only at hsaw
          rw [processContentBlocks_saw_true] at hsaw
          exact Bool.noConfusion hsaw
    · simp only [htr] at hsaw ⊢
      simp only [Bool.not_false, if_true] at hsaw ⊢
      rw [ih _ _ hsaw]
      simp

theorem mergeStep_count (merged : List ClaudeMessage) (msg : ClaudeMessage) :
    totalToolResultCount (mergeStep merged msg)
      = totalToolResultCount merged + msgToolResultCount msg := by
  unfold mergeStep
  by_cases ht : msg.message_type != "user"
  · rw [if_pos ht]; simp [totalToolResultCount]
  · rw [if_neg ht]
    cases harr : msg.content.bind Json.asArr with
    | none => simp [totalToolResultCount]
    | some content_arr =>
      dsimp only
      have hcount : msgToolResultCount msg = content_arr.countP isToolResultBlock := by
        unfold msgToolResultCount
        rw [harr]
        rfl
      have hinv := processContentBlocks_count content_arr merged [] false
      have hfalse := processContentBlocks_saw_false content_arr merged []
      rcases hp : processContentBlocks merged [] false content_arr with ⟨m2, r2, s2⟩
      rw [hp] at hinv hfalse
      dsimp only at hinv hfalse ⊢
      cases s2 with
      | false =>
        have h := hfalse rfl
        simp only [Prod.mk.injEq] at h
        simp only [Bool.not_false, if_true]
        rw [h.1]
        simp [totalToolResultCount]
      | true =>
        simp only [Bool.not_true, Bool.false_eq_true, if_false]
        by_cases hr : r2.isEmpty
        · rw [if_pos hr]
          have hr2 : r2 = [] := by simpa [List.isEmpty_iff] using hr
          subst hr2
          rw [hcount]
          simp only [totalToolResultCount] at hinv ⊢
          simp at hinv
          omega
        · rw [if_neg hr]
          have hmsg2 : msgToolResultCount { msg with content := some (Json.arr r2) }
              = r2.countP isToolResultBlock := by
            simp [msgToolResultCount, Json.asArr]
          have hgoal : totalToolResultCount (m2 ++ [{ msg with content := some (Json.arr r2) }])
              = totalToolResultCount m2 + r2.countP isToolResultBlock := by
            simp [totalToolResultCount, hmsg2]
          rw [hgoal, hcount]
          simp only [totalToolResultCount] at hinv ⊢
          simp only [List.countP_nil] at hinv
          omega

theorem merge_preserves_tool_result_count (messages : List ClaudeMessage) :
    totalToolResultCount (merge_tool_execution_messages messages)
      = totalToolResultCount messages := by
  unfold merge_tool_execution_messages
  have hgen : ∀ (msgs : List ClaudeMessage) (acc : List ClaudeMessage),
      totalToolResultCount (msgs.foldl mergeStep acc)
        = totalToolResultCount acc + totalToolResultCount msgs := by
    intro msgs
    induction msgs with
    | nil => intro acc; simp [totalToolResultCount]
    | cons m rest ih =>
      intro acc
      rw [List.foldl_cons, ih, mergeStep_count]
      simp [totalToolResultCount]
      omega
  have := hgen messages []
  simpa [totalToolResultCount] using this

/-- C4 (amended). The merger — which only inspects `tool_result` blocks
carried by user-type messages with array content — equals the spec-side
description: each such block is appended to the nearest prior assistant
message of the accepted output containing a matching `tool_use` block
(`specNearestMatch` returns the greatest matching index, and `none` only
when no prior message matches); unmerged blocks are re-emitted in their
original order; and no `tool_result` block is ever discarded (the total
count is preserved). -/
theorem merge_tool_execution_messages_correct :
    (∀ messages, merge_tool_execution_messages messages = specMerge messages)
      ∧ (∀ (merged : List ClaudeMessage) (tool_use_id : String) (i : Nat),
          specNearestMatch merged tool_use_id = some i →
            (∃ m, merged[i]? = some m ∧ has_matching_tool_use m tool_use_id = true)
              ∧ ∀ (j : Nat) (m2 : ClaudeMessage), i < j → merged[j]? = some m2 →
                  has_matching_tool_use m2 tool_use_id = false)
      ∧ (∀ (merged : List ClaudeMessage) (tool_use_id : String),
          specNearestMatch merged tool_use_id = none →
            ∀ (j : Nat) (m2 : ClaudeMessage), merged[j]? = some m2 →
              has_matching_tool_use m2 tool_use_id = false)
      ∧ (∀ messages, totalToolResultCount (merge_tool_execution_messages messages)
          = totalToolResultCount messages) :=
  ⟨merge_eq_specMerge,
    fun merged tool_use_id i h => specNearestMatch_some_char tool_use_id merged i h,
    fun merged tool_use_id h => specNearestMatch_none_no_match tool_use_id merged h,
    merge_preserves_tool_result_count⟩

/-- A `tool_use` block with id `call_1`. -/
def cexToolUseBlock : Json :=
  Json.obj [("type", Json.str "tool_use"), ("id", Json.str "call_1"), ("name", Json.str "Bash")]

/-- A `tool_result` block answering `call_1`. -/
def cexToolResultBlock : Json :=
  Json.obj [("type", Json.str "tool_result"), ("tool_use_id", Json.str "call_1")]

/-- A minimal message all concrete counterexamples start from. -/
def baseMessage : ClaudeMessage :=
  { uuid := "u", parent_uuid := none, session_id := "s",
    timestamp := "2026-02-19T12:00:00Z", message_type := "user", content := none,
    project_name := none, tool_use := none, tool_use_result := none, is_sidechain := none,
    usage := none, role := none, model := none, stop_reason := none, message_id := none,
    subtype := none, level := none, stop_reason_system := none, compact_metadata := none,
    provider := none }

/-- An assistant message carrying the `tool_use` block. -/
def cexAssistantToolUse : ClaudeMessage :=
  { baseMessage with message_type := "assistant", content := some (Json.arr [cexToolUseBlock]) }

/-- An assistant (not user) message carrying a matching `tool_result`
block. -/
def cexAssistantToolResult : ClaudeMessage :=
  { baseMessage with
      message_type := "assistant"
      content := some (Json.arr [cexToolResultBlock]) }

/-- Witness for C4: the backward search applied at a concrete accepted
output. -/
theorem merge_tool_execution_messages_correct_witness :
    (∃ m, ([cexAssistantToolUse] : List ClaudeMessage)[0]? = some m
        ∧ has_matching_tool_use m "call_1" = true)
      ∧ ∀ (j : Nat) (m2 : ClaudeMessage), 0 < j →
          ([cexAssistantToolUse] : List ClaudeMessage)[j]? = some m2 →
            has_matching_tool_use m2 "call_1" = false :=
  merge_tool_execution_messages_correct.2.1 [cexAssistantToolUse] "call_1" 0 (by rfl)

/-- Counterexample to C4 as stated: a matching `tool_result` block carried
by a message that is not of user type is left in place — it is not appended
to the nearest prior assistant message with the matching `tool_use`, even
though one exists. -/
theorem merge_tool_execution_messages_counterexample :
    merge_tool_execution_messages [cexAssistantToolUse, cexAssistantToolResult]
        = [cexAssistantToolUse, cexAssistantToolResult]
      ∧ has_matching_tool_use cexAssistantToolUse "call_1" = true
      ∧ msgToolResultCount cexAssistantToolResult = 1
      ∧ (merge_tool_execution_messages
          [cexAssistantToolUse, cexAssistantToolResult]).head?.bind (fun m => m.content)
        = some (Json.arr [cexToolUseBlock]) :=
  ⟨rfl, rfl, by decide, rfl⟩

/-! ## Cross-provider search (`commands/multi_provider.rs::search_all_providers`) -/

/-- The sort comparator of multi_provider.rs:215-225: parsed timestamps
newest-first; a message whose timestamp parses sorts before one whose
timestamp does not; raw strings descending only when both fail to parse.
`parseDate` is the oracle for `utils::parse_rfc3339_utc`. -/
def providerSortCmp (parseDate : String → Option Int) (a b : ClaudeMessage) : Ordering :=
  match parseDate a.timestamp, parseDate b.timestamp with
  | some a_ts, some b_ts => compare b_ts a_ts
  | some _, none => .lt
  | none, some _ => .gt
  | none, none => strCompare b.timestamp a.timestamp

/-- Modelled from the spec: "sorts by parsed timestamp (falling back to
lexical compare if timestamp parsing fails for either side)" — lexical
(descending) comparison of the raw strings whenever at least one side does
not parse. -/
def claimedSortCmp (parseDate : String → Option Int) (a b : ClaudeMessage) : Ordering :=
  match parseDate a.timestamp, parseDate b.timestamp with
  | some a_ts, some b_ts => compare b_ts a_ts
  | _, _ => strCompare b.timestamp a.timestamp

/-- The per-provider search outcomes consumed by `search_all_providers`:
each provider's own search is an oracle (it performs file I/O), and the
Claude branch is guarded by the resolved base path. -/
structure ProviderSearchInputs where
  claudeAvailable : Bool
  claudeResult : Except String (List ClaudeMessage)
  codexResult : Except String (List ClaudeMessage)
  opencodeResult : Except String (List ClaudeMessage)

/-- The concatenation order of multi_provider.rs:160-210: Claude (with
`provider` backfilled), then Codex, then OpenCode; a provider that is
inactive, unavailable or failing contributes nothing. -/
def gatherProviderResults (providers_to_search : List String)
    (inputs : ProviderSearchInputs) : List ClaudeMessage :=
  (if providers_to_search.contains "claude" && inputs.claudeAvailable then
    match inputs.claudeResult with
    | .ok results => results.map (fun m =>
        if m.provider.isNone then { m with provider := some "claude" } else m)
    | .error _ => []
  else [])
  ++ (if providers_to_search.contains "codex" then
    match inputs.codexResult with
    | .ok results => results
    | .error _ => []
  else [])
  ++ (if providers_to_search.contains "opencode" then
    match inputs.opencodeResult with
    | .ok results => results
    | .error _ => []
  else [])

/-- `search_all_providers` (multi_provider.rs:140-229): validate the
filters, gather the per-provider results, apply the filters, sort by
`providerSortCmp` and truncate once at the end. -/
def search_all_providers (parseDate : String → Option Int) (filters : Option Json)
    (limit : Option Nat) (active_providers : Option (List String))
    (inputs : ProviderSearchInputs) : Except String (List ClaudeMessage) :=
  match validate_search_filters parseDate (filters.getD (Json.obj [])) with
  | .error e => .error e
  | .ok _ =>
    .ok ((sortByCmp (providerSortCmp parseDate)
      (apply_search_filters parseDate
        (gatherProviderResults (active_providers.getD ["claude", "codex", "opencode"]) inputs)
        (filters.getD (Json.obj [])))).take (limit.getD 100))

theorem natCompare_swap (a b : Nat) : compare a b = (compare b a).swap := by
  rcases lt_trichotomy a b with h | h | h
  · rw [compare_lt_iff_lt.2 h, compare_gt_iff_gt.2 h]; rfl
  · rw [h, compare_eq_iff_eq.2 rfl]; rfl
  · rw [compare_gt_iff_gt.2 h, compare_lt_iff_lt.2 h]; rfl

theorem intCompare_swap (a b : Int) : compare a b = (compare b a).swap := by
  rcases lt_trichotomy a b with h | h | h
  · rw [compare_lt_iff_lt.2 h, compare_gt_iff_gt.2 h]; rfl
  · rw [h, compare_eq_iff_eq.2 rfl]; rfl
  · rw [compare_gt_iff_gt.2 h, compare_lt_iff_lt.2 h]; rfl

theorem charListCompare_swap : ∀ as1 bs : List Char,
    charListCompare as1 bs = (charListCompare bs as1).swap
  | [], [] => rfl
  | [], _ :: _ => rfl
  | _ :: _, [] => rfl
  | a :: as1, b :: bs => by
    unfold charListCompare
    rw [natCompare_swap a.toNat b.toNat]
    cases h : compare b.toNat a.toNat with
    | eq => simpa [Ordering.swap] using charListCompare_swap as1 bs
    | lt => simp [Ordering.swap]
    | gt => simp [Ordering.swap]

theorem strCompare_swap (a b : String) : strCompare a b = (strCompare b a).swap :=
  charListCompare_swap a.data b.data

theorem providerSortCmp_swap (parseDate : String → Option Int) (a b : ClaudeMessage) :
    providerSortCmp parseDate a b = (providerSortCmp parseDate b a).swap := by
  unfold providerSortCmp
  cases ha : parseDate a.timestamp with
  | some a_ts =>
    cases hb : parseDate b.timestamp with
    | some b_ts => exact intCompare_swap b_ts a_ts
    | none => rfl
  | none =>
    cases hb : parseDate b.timestamp with
    | some b_ts => rfl
    | none => exact strCompare_swap b.timestamp a.timestamp

theorem insertByCmp_perm (cmp : α → α → Ordering) (x : α) :
    ∀ l : List α, (insertByCmp cmp x l).Perm (x :: l) := by
  intro l
  induction l with
  | nil => exact List.Perm.refl _
  | cons y ys ih =>
    unfold insertByCmp
    cases hcmp : cmp x y with
    | lt => exact List.Perm.refl _
    | eq => exact (ih.cons y).trans (List.Perm.swap x y ys)
    | gt => exact (ih.cons y).trans (List.Perm.swap x y ys)

theorem sortByCmp_perm (cmp : α → α → Ordering) (l : List α) :
    (sortByCmp cmp l).Perm l := by
  have hgen : ∀ (l acc : List α),
      (l.foldl (fun acc x => insertByCmp cmp x acc) acc).Perm (l ++ acc) := by
    intro l
    induction l with
    | nil => intro acc; simp
    | cons x xs ih =>
      intro acc
      rw [List.foldl_cons]
      exact (ih _).trans
        (((insertByCmp_perm cmp x acc).append_left xs).trans List.perm_middle)
  simpa [sortByCmp] using hgen l []

theorem insertByCmp_head (cmp : α → α → Ordering) (x : α) :
    ∀ l : List α, (insertByCmp cmp x l).head? = some x ∨
      (insertByCmp cmp x l).head? = l.head? := by
  intro l
  cases l with
  | nil => exact Or.inl rfl
  | cons y ys =>
    unfold insertByCmp
    cases hcmp : cmp x y with
    | lt => exact Or.inl rfl
    | eq => exact Or.inr rfl
    | gt => exact Or.inr rfl

theorem insertByCmp_chain (cmp : α → α → Ordering)
    (hswap : ∀ a b, cmp a b = (cmp b a).swap) (x : α) :
    ∀ l : List α, l.Chain' (fun a b => cmp a b ≠ .gt) →
      (insertByCmp cmp x l).Chain' (fun a b => cmp a b ≠ .gt) := by
  intro l
  induction l with
  | nil => intro _; simp [insertByCmp]
  | cons y ys ih =>
    intro hchain
    rw [List.chain'_cons'] at hchain
    obtain ⟨hhead, htail⟩ := hchain
    unfold insertByCmp
    cases hcmp : cmp x y with
    | lt =>
      rw [List.chain'_cons']
      refine ⟨?_, List.chain'_cons'.2 ⟨hhead, htail⟩⟩
      intro b hb
      simp at hb
      subst hb
      simp [hcmp]
    | eq =>
      rw [List.chain'_cons']
      refine ⟨?_, ih htail⟩
      intro b hb
      rcases insertByCmp_head cmp x ys with hh | hh
      · rw [hh] at hb
        simp at hb
        subst hb
        intro hgt
        have : cmp x y = .lt := by rw [hswap x y, hgt]; rfl
        rw [hcmp] at this
        exact Ordering.noConfusion this
      · rw [hh] at hb
        exact hhead b hb
    | gt =>
      rw [List.chain'_cons']
      refine ⟨?_, ih htail⟩
      intro b hb
      rcases insertByCmp_head cmp x ys with hh | hh
      · rw [hh] at hb
        simp at hb
        subst hb
        intro hgt
        have : cmp x y = .lt := by rw [hswap x y, hgt]; rfl
        rw [hcmp] at this
        exact Ordering.noConfusion this
      · rw [hh] at hb
        exact hhead b hb

theorem sortByCmp_chain (cmp : α → α → Ordering)
    (hswap : ∀ a b, cmp a b = (cmp b a).swap) (l : List α) :
    (sortByCmp cmp l).Chain' (fun a b => cmp a b ≠ .gt) := by
  have hgen : ∀ (l acc : List α), acc.Chain' (fun a b => cmp a b ≠ .gt) →
      (l.foldl (fun acc x => insertByCmp cmp x acc) acc).Chain' (fun a b => cmp a b ≠ .gt) := by
    intro l
    induction l with
    | nil => intro acc h; simpa using h
    | cons x xs ih =>
      intro acc h
      rw [List.foldl_cons]
      exact ih _ (insertByCmp_chain cmp hswap x acc h)
  exact hgen l [] (by simp)

/-- C9 (amended). `search_all_providers` validates, gathers the providers'
results in a fixed order, applies the filters, stable-sorts by the code's
comparator — parsed timestamps newest-first, parseable before unparseable,
lexical descending only when both sides fail to parse — and truncates once
at the end: an error propagates untouched; a success is exactly the
truncated sort of the filtered concatenation; every successful output is
sorted under that comparator; and the sort is a permutation of the filtered
concatenation (nothing but the final truncation drops results). -/
theorem search_all_providers_spec (parseDate : String → Option Int) (filters : Option Json)
    (limit : Option Nat) (active_providers : Option (List String))
    (inputs : ProviderSearchInputs) :
    (∀ e, validate_search_filters parseDate (filters.getD (Json.obj [])) = .error e →
        search_all_providers parseDate filters limit active_providers inputs = .error e)
      ∧ (∀ u, validate_search_filters parseDate (filters.getD (Json.obj [])) = .ok u →
          search_all_providers parseDate filters limit active_providers inputs
            = .ok ((sortByCmp (providerSortCmp parseDate)
                (apply_search_filters parseDate
                  (gatherProviderResults
                    (active_providers.getD ["claude", "codex", "opencode"]) inputs)
                  (filters.getD (Json.obj [])))).take (limit.getD 100)))
      ∧ (∀ out, search_all_providers parseDate filters limit active_providers inputs = .ok out →
          out.Chain' (fun a b => providerSortCmp parseDate a b ≠ .gt))
      ∧ (sortByCmp (providerSortCmp parseDate)
          (apply_search_filters parseDate
            (gatherProviderResults
              (active_providers.getD ["claude", "codex", "opencode"]) inputs)
            (filters.getD (Json.obj [])))).Perm
        (apply_search_filters parseDate
          (gatherProviderResults
            (active_providers.getD ["claude", "codex", "opencode"]) inputs)
          (filters.getD (Json.obj []))) := by
  refine ⟨?_, ?_, ?_, sortByCmp_perm _ _⟩
  · intro e he
    unfold search_all_providers
    rw [he]
  · intro u hu
    unfold search_all_providers
    rw [hu]
  · intro out hout
    unfold search_all_providers at hout
    cases hv : validate_search_filters parseDate (filters.getD (Json.obj [])) with
    | error e => rw [hv] at hout; exact Except.noConfusion hout
    | ok u =>
      rw [hv] at hout
      simp only [Except.ok.injEq] at hout
      subst hout
      exact (sortByCmp_chain (providerSortCmp parseDate)
        (providerSortCmp_swap parseDate) _).take _

/-- A parse oracle recognizing exactly one RFC3339 timestamp. -/
def cexParse : String → Option Int :=
  fun s => if s = "2024-01-01T00:00:00Z" then some 1704067200 else none

/-- A message with a parseable timestamp. -/
def cexMsgParsed : ClaudeMessage :=
  { baseMessage with uuid := "m1", timestamp := "2024-01-01T00:00:00Z" }

/-- A message whose timestamp fails to parse but is lexically largest. -/
def cexMsgUnparsed : ClaudeMessage :=
  { baseMessage with uuid := "m2", timestamp := "zzz" }

/-- Provider outcomes: only the Codex search returns results. -/
def cexSearchInputs : ProviderSearchInputs :=
  { claudeAvailable := false, claudeResult := .ok [],
    codexResult := .ok [cexMsgUnparsed, cexMsgParsed], opencodeResult := .ok [] }

/-- Witness for C9 at concrete inputs: the validation succeeds and the
result is the truncated sort of the filtered concatenation. -/
theorem search_all_providers_spec_witness :
    search_all_providers cexParse none none none cexSearchInputs
      = .ok ((sortByCmp (providerSortCmp cexParse)
          (apply_search_filters cexParse
            (gatherProviderResults ((none : Option (List String)).getD
              ["claude", "codex", "opencode"]) cexSearchInputs)
            ((none : Option Json).getD (Json.obj [])))).take ((none : Option Nat).getD 100)) :=
  (search_all_providers_spec cexParse none none none cexSearchInputs).2.1 () (by rfl)

/-- Counterexample to C9 as stated: when exactly one timestamp fails to
parse, the code places the parseable message first, whereas the claimed
lexical fallback would sort the raw strings descending and put the
unparseable `"zzz"` first — so the output is not the claimed order. -/
theorem search_all_providers_counterexample :
    search_all_providers cexParse none none none cexSearchInputs
        = .ok [cexMsgParsed, cexMsgUnparsed]
      ∧ (sortByCmp (claimedSortCmp cexParse)
          (apply_search_filters cexParse [cexMsgUnparsed, cexMsgParsed] (Json.obj []))).take 100
        = [cexMsgUnparsed, cexMsgParsed]
      ∧ ([cexMsgParsed, cexMsgUnparsed].head?.map (fun m => m.uuid)
          ≠ [cexMsgUnparsed, cexMsgParsed].head?.map (fun m => m.uuid)) := by
  refine ⟨rfl, rfl, by decide⟩

/-! ## Claude session loading (`commands/session/load.rs`) -/

/-- `models::MessageContent` (reconstructed from its use sites in load.rs
and search.rs): the nested `message` object of a Claude log record. -/
structure RawMessageContent where
  role : String
  id : Option String
  model : Option String
  stop_reason : Option String
  usage : Option TokenUsage
  content : Json
  deriving Repr, BEq

/-- `models::RawLogEntry` (reconstructed from its use sites): one decoded
Claude log line.  The pass-through fields that no claim reads (`cost_usd`,
`duration_ms`, `snapshot`, `is_snapshot_update`, `data`, `tool_use_id`,
`parent_tool_use_id`, `operation`, `hook_count`, `hook_infos`,
`prevented_continuation`, `microcompact_metadata`) are omitted, as in
`ClaudeMessage`. -/
structure RawLogEntry where
  message_type : String
  uuid : Option String
  parent_uuid : Option String
  leaf_uuid : Option String
  session_id : Option String
  timestamp : Option String
  summary : Option String
  message : Option RawMessageContent
  content : Option Json
  tool_use : Option Json
  tool_use_result : Option Json
  is_sidechain : Option Bool
  message_id : Option String
  subtype : Option String
  level : Option String
  stop_reason_system : Option String
  compact_metadata : Option Json
  deriving Repr, BEq

/-- The loader's effects: `Uuid::new_v4()` and `Utc::now().to_rfc3339()`,
both read independently per line. -/
structure ParseEnv where
  freshUuid : Nat → String
  now : Nat → String

/-- `line.trim().is_empty()`: the line holds only whitespace.  (Rust trims
Unicode White_Space; the common ASCII whitespace modelled by
`Char.isWhitespace` is what log files contain.) -/
def lineIsBlank (line : String) : Bool :=
  line.data.all (fun c => c.isWhitespace)

/-- `parse_line_to_message` (load.rs:354-455).  `decode` is the oracle for
`serde_json::from_str::<RawLogEntry>` (malformed JSON yields `none`).
Fields of `ClaudeMessage` that this constructor does not draw from the
entry are `none`. -/
def parse_line_to_message (decode : String → Option RawLogEntry) (env : ParseEnv)
    (line_num : Nat) (line : String) (include_summary : Bool) : Option ClaudeMessage :=
  if lineIsBlank line then none
  else
    match decode line with
    | none => none
    | some log_entry =>
      if log_entry.message_type == "summary" then
        if !include_summary then none
        else
          match log_entry.summary with
          | none => none
          | some summary_text =>
            some { uuid := log_entry.uuid.getD (env.freshUuid line_num)
                   parent_uuid := log_entry.leaf_uuid
                   session_id := log_entry.session_id.getD "unknown-session"
                   timestamp := log_entry.timestamp.getD (env.now line_num)
                   message_type := "summary"
                   content := some (Json.str summary_text)
                   project_name := none, tool_use := none, tool_use_result := none
                   is_sidechain := none, usage := none, role := none, model := none
                   stop_reason := none, message_id := none, subtype := none, level := none
                   stop_reason_system := none, compact_metadata := none, provider := none }
      else if log_entry.session_id.isNone && log_entry.timestamp.isNone then none
      else
        some { uuid := log_entry.uuid.getD
                 (env.freshUuid line_num ++ "-line-" ++ toString (line_num + 1))
               parent_uuid := log_entry.parent_uuid
               session_id := log_entry.session_id.getD "unknown-session"
               timestamp := log_entry.timestamp.getD (env.now line_num)
               message_type := log_entry.message_type
               content := (log_entry.message.map (fun m => m.content)).or log_entry.content
               project_name := none
               tool_use := log_entry.tool_use
               tool_use_result := log_entry.tool_use_result
               is_sidechain := log_entry.is_sidechain
               usage := log_entry.message.bind (fun m => m.usage)
               role := log_entry.message.map (fun m => m.role)
               model := log_entry.message.bind (fun m => m.model)
               stop_reason := log_entry.message.bind (fun m => m.stop_reason)
               message_id := (log_entry.message.bind (fun m => m.id)).or log_entry.message_id
               subtype := log_entry.subtype
               level := log_entry.level
               stop_reason_system := log_entry.stop_reason_system
               compact_metadata := log_entry.compact_metadata
               provider := none }

/-- Split a character list at every newline (the pieces exclude the
terminator). -/
def splitLinesChars : List Char → List (List Char)
  | [] => [[]]
  | c :: rest =>
    if c = '\n' then [] :: splitLinesChars rest
    else
      match splitLinesChars rest with
      | [] => [[c]]
      | piece :: pieces => (c :: piece) :: pieces

/-- Rust `str::lines`: split on newlines, drop the final empty piece of a
terminated file, strip a trailing carriage return from each line. -/
def linesOf (content : String) : List String :=
  let pieces := splitLinesChars content.data
  let pieces := if pieces.getLast? = some [] then pieces.dropLast else pieces
  pieces.map (fun cs => String.mk (if cs.getLast? = some '\r' then cs.dropLast else cs))

/-- `load_session_messages` (load.rs:457-491): parse every line (summaries
included) and keep the original line order.  The source parses lines in
parallel and then sorts the results by line number, which is exactly the
sequential order modelled here. -/
def load_session_messages (decode : String → Option RawLogEntry) (env : ParseEnv)
    (content : String) : List ClaudeMessage :=
  (linesOf content).enum.filterMap
    (fun p => parse_line_to_message decode env p.1 p.2 true)

/-- C6. For a decodable non-summary Claude log line: the record is dropped
exactly when both the session id and the timestamp are absent; otherwise a
message is produced whose missing non-essential fields are backfilled with
a generated id, `"unknown-session"`, or the current time. -/
theorem parse_line_to_message_backfills (decode : String → Option RawLogEntry)
    (env : ParseEnv) (line_num : Nat) (line : String) (include_summary : Bool)
    (entry : RawLogEntry) (hdecode : decode line = some entry)
    (hline : lineIsBlank line = false) (htype : entry.message_type ≠ "summary") :
    (entry.session_id = none → entry.timestamp = none →
        parse_line_to_message decode env line_num line include_summary = none)
      ∧ (entry.session_id.isSome ∨ entry.timestamp.isSome →
          ∃ msg, parse_line_to_message decode env line_num line include_summary = some msg
            ∧ msg.uuid = entry.uuid.getD
                (env.freshUuid line_num ++ "-line-" ++ toString (line_num + 1))
            ∧ msg.session_id = entry.session_id.getD "unknown-session"
            ∧ msg.timestamp = entry.timestamp.getD (env.now line_num)
            ∧ msg.message_type = entry.message_type) := by
  have hsummary : (entry.message_type == "summary") = false := by
    simpa using htype
  constructor
  · intro hs ht
    unfold parse_line_to_message
    rw [if_neg (by simp [hline]), hdecode]
    simp only [hsummary, Bool.false_eq_true, if_false]
    rw [if_pos (by simp [hs, ht])]
  · intro hpresent
    unfold parse_line_to_message
    rw [if_neg (by simp [hline]), hdecode]
    simp only [hsummary, Bool.false_eq_true, if_false]
    rw [if_neg (by
      rcases hpresent with h | h
      · simp [Option.isNone_iff_eq_none]
        intro hnone
        rw [hnone] at h
        simp at h
      · simp [Option.isNone_iff_eq_none]
        intro _
        intro hnone
        rw [hnone] at h
        simp at h)]
    exact ⟨_, rfl, rfl, rfl, rfl, rfl⟩

/-- A decoded record with a session id but neither uuid suffix conflicts
nor a timestamp. -/
def cexEntryNoTimestamp : RawLogEntry :=
  { message_type := "user"
    uuid := none
    parent_uuid := none
    leaf_uuid := none
    session_id := some "s1"
    timestamp := none
    summary := none
    message := none
    content := none
    tool_use := none
    tool_use_result := none
    is_sidechain := none
    message_id := none
    subtype := none
    level := none
    stop_reason_system := none
    compact_metadata := none }

/-- A decode oracle recognizing exactly the line `"rec"`. -/
def cexDecodeLoad : String → Option RawLogEntry :=
  fun l => if l = "rec" then some cexEntryNoTimestamp else none

/-- A run environment for the loader. -/
def cexEnvA : ParseEnv := { freshUuid := fun _ => "f", now := fun _ => "2026-01-01T00:00:00Z" }

/-- A second run environment with a different wall clock. -/
def cexEnvB : ParseEnv := { freshUuid := fun _ => "f", now := fun _ => "2026-01-02T00:00:00Z" }

/-- Witness for C6: a concrete line whose decoded entry lacks a timestamp
but has a session id is kept and backfilled. -/
theorem parse_line_to_message_backfills_witness :
    ∃ msg, parse_line_to_message cexDecodeLoad cexEnvA 0 "rec" true = some msg
      ∧ msg.uuid = "f-line-1"
      ∧ msg.session_id = "s1"
      ∧ msg.timestamp = "2026-01-01T00:00:00Z"
      ∧ msg.message_type = "user" := by
  obtain ⟨msg, hmsg, h1, h2, h3, h4⟩ :=
    (parse_line_to_message_backfills cexDecodeLoad cexEnvA 0 "rec" true
      cexEntryNoTimestamp (by rfl) (by decide) (by decide)).2 (Or.inl (by decide))
  exact ⟨msg, hmsg, h1, h2, h3, h4⟩

theorem parse_line_to_message_env_indep (decode : String → Option RawLogEntry)
    (env1 env2 : ParseEnv) (line_num : Nat) (line : String) (include_summary : Bool)
    (h : ∀ entry, decode line = some entry →
        entry.uuid.isSome ∧ entry.timestamp.isSome) :
    parse_line_to_message decode env1 line_num line include_summary
      = parse_line_to_message decode env2 line_num line include_summary := by
  unfold parse_line_to_message
  by_cases hb : lineIsBlank line
  · rw [if_pos hb, if_pos hb]
  · rw [if_neg hb, if_neg hb]
    cases hd : decode line with
    | none => rfl
    | some entry =>
      dsimp only
      obtain ⟨hu, ht⟩ := h entry hd
      obtain ⟨u, hu⟩ := Option.isSome_iff_exists.mp hu
      obtain ⟨t, ht⟩ := Option.isSome_iff_exists.mp ht
      by_cases hs : entry.message_type == "summary"
      · rw [if_pos hs, if_pos hs]
        cases include_summary with
        | false => rfl
        | true =>
          cases hsum : entry.summary with
          | none => rfl
          | some summary_text => simp [hu, ht]
      · rw [if_neg hs, if_neg hs]
        by_cases hdrop : entry.session_id.isNone && entry.timestamp.isNone
        · rw [if_pos hdrop, if_pos hdrop]
        · rw [if_neg hdrop, if_neg hdrop]
          simp [hu, ht]

/-- C8 (amended). Re-parsing an unchanged session file twice yields an
identical message list whenever every record that decodes carries both a
source-provided id and a timestamp: under that assumption the loader's
output does not depend on the run's UUID generator or wall clock.  (A
record with no timestamp is backfilled with the wall-clock read time, so
the assumption on timestamps is necessary — see the counterexample.) -/
theorem load_session_messages_idempotent (decode : String → Option RawLogEntry)
    (env1 env2 : ParseEnv) (content : String)
    (hids : ∀ line entry, line ∈ linesOf content → decode line = some entry →
        entry.uuid.isSome ∧ entry.timestamp.isSome) :
    load_session_messages decode env1 content = load_session_messages decode env2 content := by
  unfold load_session_messages
  apply List.filterMap_congr
  intro p hp
  have hline : p.2 ∈ linesOf content := by
    have hget := List.mem_enum_iff_getElem?.mp hp
    exact List.getElem?_mem hget
  exact parse_line_to_message_env_indep decode env1 env2 p.1 p.2 true
    (fun entry hd => hids p.2 entry hline hd)

/-- A fully identified record: both a source id and a timestamp. -/
def cexEntryFull : RawLogEntry :=
  { cexEntryNoTimestamp with uuid := some "u1", timestamp := some "2025-06-26T10:00:00Z" }

/-- A decode oracle returning the fully identified record for `"rec"`. -/
def cexDecodeFull : String → Option RawLogEntry :=
  fun l => if l = "rec" then some cexEntryFull else none

/-- Witness for C8: with ids and timestamps present, two runs with
different UUID generators and clocks agree. -/
theorem load_session_messages_idempotent_witness :
    load_session_messages cexDecodeFull cexEnvA "rec"
      = load_session_messages cexDecodeFull cexEnvB "rec" :=
  load_session_messages_idempotent cexDecodeFull cexEnvA cexEnvB "rec" (by
    intro line entry hmem hd
    have hl : linesOf "rec" = ["rec"] := by decide
    rw [hl] at hmem
    simp at hmem
    subst hmem
    have : entry = cexEntryFull := by
      simpa [cexDecodeFull] using hd.symm
    subst this
    exact ⟨by decide, by decide⟩)

/-- A record carrying a source-provided id but no timestamp. -/
def cexEntryIdNoTimestamp : RawLogEntry :=
  { cexEntryNoTimestamp with uuid := some "u1" }

/-- A decode oracle returning the id-but-no-timestamp record for `"rec"`. -/
def cexDecodeLoadWithId : String → Option RawLogEntry :=
  fun l => if l = "rec" then some cexEntryIdNoTimestamp else none

/-- Counterexample to C8 as stated: a record with a source-provided id and
a session id but no timestamp decodes on both runs, yet the two runs
disagree — the missing timestamp is backfilled with each run's wall-clock
time. -/
theorem load_session_messages_counterexample :
    (∀ line entry, cexDecodeLoadWithId line = some entry → entry.uuid.isSome)
      ∧ (load_session_messages cexDecodeLoadWithId cexEnvA "rec").map (fun m => m.timestamp)
        = ["2026-01-01T00:00:00Z"]
      ∧ (load_session_messages cexDecodeLoadWithId cexEnvB "rec").map (fun m => m.timestamp)
        = ["2026-01-02T00:00:00Z"]
      ∧ load_session_messages cexDecodeLoadWithId cexEnvA "rec"
        ≠ load_session_messages cexDecodeLoadWithId cexEnvB "rec" := by
  refine ⟨?_, by decide, by decide, ?_⟩
  · intro line entry hd
    by_cases hl : line = "rec"
    · simp [cexDecodeLoadWithId, hl] at hd
      rw [← hd]
      decide
    · simp [cexDecodeLoadWithId, hl] at hd
  · intro hcontra
    have := congrArg (List.map (fun m : ClaudeMessage => m.timestamp)) hcontra
    rw [show (load_session_messages cexDecodeLoadWithId cexEnvA "rec").map
        (fun m => m.timestamp) = ["2026-01-01T00:00:00Z"] by decide] at this
    rw [show (load_session_messages cexDecodeLoadWithId cexEnvB "rec").map
        (fun m => m.timestamp) = ["2026-01-02T00:00:00Z"] by decide] at this
    simp at this

/-! ## Codex provider (`providers/codex.rs`) -/

/-- A file-system path as a list of components; `Path::starts_with` is
component-wise prefixing, modelled by `List.isPrefixOf`. -/
abbrev FsPath := List String

/-- The Codex provider's file-system oracles: base-path resolution
(`get_base_path`), existence/directory checks, `canonicalize`, and the
decoded JSON lines of a rollout file (lines that fail `simd_json` decoding
are skipped by the source and are simply absent here). -/
structure CodexFs where
  codexHome : Option FsPath
  pathExists : FsPath → Bool
  isDir : FsPath → Bool
  canonicalize : FsPath → Option FsPath
  lines : FsPath → List Json

/-- `get_sessions_dir` (codex.rs:48-51). -/
def get_sessions_dir (fs : CodexFs) : Except String FsPath :=
  match fs.codexHome with
  | none => .error "Codex not found"
  | some base => .ok (base ++ ["sessions"])

/-- `get_archived_sessions_dir` (codex.rs:53-56). -/
def get_archived_sessions_dir (fs : CodexFs) : Except String FsPath :=
  match fs.codexHome with
  | none => .error "Codex not found"
  | some base => .ok (base ++ ["archived_sessions"])

/-- The canonicalization loop of `validate_session_path` (codex.rs:80-89):
skip a session directory that does not exist or is not a directory,
canonicalize the rest, failing on the first canonicalization error. -/
def canonicalizeDirs (fs : CodexFs) : List FsPath → Except String (List FsPath)
  | [] => .ok []
  | dir :: rest =>
    if !fs.pathExists dir || !fs.isDir dir then canonicalizeDirs fs rest
    else
      match fs.canonicalize dir with
      | none => .error "Failed to resolve Codex session directory"
      | some c =>
        match canonicalizeDirs fs rest with
        | .error e => .error e
        | .ok cs => .ok (c :: cs)

/-- `validate_session_path` (codex.rs:75-106): canonicalize the session
path, collect the canonical session directories, and accept the path only
if it lies under one of them. -/
def validate_session_path (fs : CodexFs) (session_path : FsPath) (raw_session_path : String) :
    Except String FsPath :=
  match fs.canonicalize session_path with
  | none => .error "Failed to resolve session path"
  | some canonical_session =>
    match get_sessions_dir fs with
    | .error e => .error e
    | .ok sessions_dir =>
      match get_archived_sessions_dir fs with
      | .error e => .error e
      | .ok archived_sessions_dir =>
        match canonicalizeDirs fs [sessions_dir, archived_sessions_dir] with
        | .error e => .error e
        | .ok canonical_session_dirs =>
          if canonical_session_dirs.isEmpty then
            .error "No Codex session directories found"
          else if canonical_session_dirs.any
              (fun allowed_dir => List.isPrefixOf allowed_dir canonical_session) then
            .ok canonical_session
          else
            .error ("Session path is outside Codex session directories: " ++ raw_session_path)

/-- `extract_first_tool_use` (codex.rs:1170-1175). -/
def extract_first_tool_use (content : Option Json) : Option Json :=
  (content.bind Json.asArr).bind
    (fun arr => arr.find? (fun item => ((item.get "type").bind Json.asStr) == some "tool_use"))

/-- `build_codex_message` (codex.rs:1227-1276). -/
def build_codex_message (uuid : String) (session_id : String) (timestamp : String)
    (message_type : String) (role : Option String) (content : Option Json)
    (model : Option String) : ClaudeMessage :=
  { uuid := uuid
    parent_uuid := none
    session_id := session_id
    timestamp := timestamp
    message_type := message_type
    content := content
    project_name := none
    tool_use := if message_type == "assistant" then extract_first_tool_use content else none
    tool_use_result := none
    is_sidechain := none
    usage := none
    role := role
    model := model
    stop_reason := none
    message_id := none
    subtype := none
    level := none
    stop_reason_system := none
    compact_metadata := none
    provider := some "codex" }

/-- `has_matching_tool_use` (codex.rs:1153-1161): unlike the
multi-provider variant, the assistant check lives in the caller. -/
def codexHasMatchingToolUse (msg : ClaudeMessage) (tool_use_id : String) : Bool :=
  match msg.content.bind Json.asArr with
  | none => false
  | some arr =>
    arr.any (fun item =>
      ((item.get "type").bind Json.asStr) == some "tool_use"
        && ((item.get "id").bind Json.asStr) == some tool_use_id)

/-- `extract_tool_result_block` (codex.rs:1140-1151): the first content
block, when it is a `tool_result` with a `tool_use_id`. -/
def extract_tool_result_block (msg : ClaudeMessage) : Option (String × Json) :=
  match msg.content.bind Json.asArr with
  | none => none
  | some arr =>
    match arr.head? with
    | none => none
    | some first =>
      if ((first.get "type").bind Json.asStr) != some "tool_result" then none
      else
        match (first.get "tool_use_id").bind Json.asStr with
        | none => none
        | some tool_use_id => some (tool_use_id, first)

/-- The backward scan of `try_merge_tool_result_into_previous`
(codex.rs:1127-1135): append to the last prior assistant message with a
matching `tool_use`. -/
def codexAppendToLastMatching (tool_use_id : String) (block : Json) :
    List ClaudeMessage → Option (List ClaudeMessage)
  | [] => none
  | m :: rest =>
    match codexAppendToLastMatching tool_use_id block rest with
    | some rest2 => some (m :: rest2)
    | none =>
      if m.message_type == "assistant" && codexHasMatchingToolUse m tool_use_id then
        some (append_content_block m block :: rest)
      else none

/-- `try_merge_tool_result_into_previous` (codex.rs:1115-1138), returning
the updated message list when the merge happened. -/
def try_merge_tool_result_into_previous (messages : List ClaudeMessage)
    (msg : ClaudeMessage) : Option (List ClaudeMessage) :=
  if msg.message_type != "user" then none
  else
    match extract_tool_result_block msg with
    | none => none
    | some (tool_use_id, block) => codexAppendToLastMatching tool_use_id block messages

/-- `extract_token_totals` (codex.rs:983-989): the cumulative totals under
`payload.info.total_token_usage` (`as u32` narrows each). -/
def extract_token_totals (payload : Json) : Option (Nat × Nat) :=
  match payload.get "info" with
  | none => none
  | some info =>
    match info.get "total_token_usage" with
    | none => none
    | some total =>
      match (total.get "input_tokens").bind Json.asNat with
      | none => none
      | some input =>
        match (total.get "output_tokens").bind Json.asNat with
        | none => none
        | some output => some (input % U32MOD, output % U32MOD)

/-- `extract_last_token_usage` (codex.rs:991-997). -/
def extract_last_token_usage (payload : Json) : Option (Nat × Nat) :=
  match payload.get "info" with
  | none => none
  | some info =>
    match info.get "last_token_usage" with
    | none => none
    | some last =>
      match (last.get "input_tokens").bind Json.asNat with
      | none => none
      | some input =>
        match (last.get "output_tokens").bind Json.asNat with
        | none => none
        | some output => some (input % U32MOD, output % U32MOD)

/-- `convert_codex_compacted` (codex.rs:953-981). -/
def convert_codex_compacted (payload : Json) (session_id : String) (line_timestamp : String)
    (counter : Nat) : ClaudeMessage × Nat :=
  let counter := counter + 1
  let replacement_history_count :=
    (((payload.get "replacement_history").bind Json.asArr).map List.length).getD 0
  let msg := build_codex_message ("codex-compacted-" ++ toString counter) session_id
    line_timestamp "system" none (some (Json.str "Conversation compacted")) none
  ({ msg with
      subtype := some "compact_boundary"
      level := some "info"
      compact_metadata := some (Json.obj [("trigger", Json.str "compacted"),
        ("replacementHistoryCount", Json.num replacement_history_count)]) },
    counter)

/-- The two large per-record converters of codex.rs (`convert_codex_item`,
codex.rs:560-790, and `convert_codex_event`, codex.rs:792-951) as oracles:
they take the payload, the current session id / model / line timestamp and
the message counter, and yield an optional unified message plus the updated
counter.  The claims under verification do not depend on their bodies. -/
structure CodexConverters where
  convertItem : Json → String → Option String → String → Nat → Option ClaudeMessage × Nat
  convertEvent : Json → String → String → Nat → Option ClaudeMessage × Nat

/-- The loop state of `load_messages` (codex.rs:258-263). -/
structure CodexLoadState where
  messages : List ClaudeMessage
  session_id : String
  current_model : Option String
  prev_input_tokens : Nat
  prev_output_tokens : Nat
  msg_counter : Nat

/-- The initial loop state of `load_messages`. -/
def CodexLoadState.init : CodexLoadState :=
  { messages := [], session_id := "", current_model := none,
    prev_input_tokens := 0, prev_output_tokens := 0, msg_counter := 0 }

/-- One iteration of the line loop of `load_messages` (codex.rs:265-368). -/
def codexLineStep (conv : CodexConverters) (st : CodexLoadState) (val : Json) :
    CodexLoadState :=
  let line_timestamp := ((val.get "timestamp").bind Json.asStr).getD ""
  let line_type := ((val.get "type").bind Json.asStr).getD ""
  if line_type == "session_meta" then
    match val.get "payload" with
    | some payload =>
      { st with session_id := ((payload.get "id").bind Json.asStr).getD "unknown" }
    | none => st
  else if line_type == "turn_context" then
    match val.get "payload" with
    | some payload =>
      match (payload.get "model").bind Json.asStr with
      | some m => { st with current_model := some m }
      | none => st
    | none => st
  else if line_type == "response_item" then
    match val.get "payload" with
    | some payload =>
      match conv.convertItem payload st.session_id st.current_model line_timestamp
        st.msg_counter with
      | (some msg, counter2) =>
        match try_merge_tool_result_into_previous st.messages msg with
        | some merged => { st with messages := merged, msg_counter := counter2 }
        | none => { st with messages := st.messages ++ [msg], msg_counter := counter2 }
      | (none, counter2) => { st with msg_counter := counter2 }
    | none => st
  else if line_type == "event_msg" then
    match val.get "payload" with
    | some payload =>
      let event_type := ((payload.get "type").bind Json.asStr).getD ""
      if event_type == "token_count" then
        match (extract_token_totals payload).or (extract_last_token_usage payload) with
        | none => st
        | some (input, output) =>
          let delta :=
            if st.prev_input_tokens = 0 && st.prev_output_tokens = 0 then (input, output)
            else (input - st.prev_input_tokens, output - st.prev_output_tokens)
          let st := { st with prev_input_tokens := input, prev_output_tokens := output }
          match st.messages.getLast? with
          | some last_msg =>
            if last_msg.message_type == "assistant" && last_msg.usage.isNone then
              { st with messages := st.messages.dropLast ++ [{ last_msg with
                  usage := some ⟨some delta.1, some delta.2, none, none, none⟩ }] }
            else st
          | none => st
      else
        match conv.convertEvent payload st.session_id line_timestamp st.msg_counter with
        | (some msg, counter2) =>
          { st with messages := st.messages ++ [msg], msg_counter := counter2 }
        | (none, counter2) => { st with msg_counter := counter2 }
    | none => st
  else if line_type == "compacted" then
    match val.get "payload" with
    | some payload =>
      match convert_codex_compacted payload st.session_id line_timestamp st.msg_counter with
      | (msg, counter2) => { st with messages := st.messages ++ [msg], msg_counter := counter2 }
    | none => st
  else st

/-- The message list produced by folding the line loop over the decoded
lines of a rollout file. -/
def loadCodexLines (conv : CodexConverters) (lines : List Json) : List ClaudeMessage :=
  (lines.foldl (codexLineStep conv) CodexLoadState.init).messages

/-- `load_messages` (codex.rs:246-371): existence check, path validation,
then the line loop over the validated canonical file. -/
def codex_load_messages (fs : CodexFs) (conv : CodexConverters) (session_path : FsPath)
    (raw_session_path : String) : Except String (List ClaudeMessage) :=
  if !fs.pathExists session_path then
    .error ("Session file not found: " ++ raw_session_path)
  else
    match validate_session_path fs session_path raw_session_path with
    | .error e => .error e
    | .ok canonical_path => .ok (loadCodexLines conv (fs.lines canonical_path))

/-- C7 (amended). On a `token_count` event with extractable cumulative
totals, the loader updates the tracked cumulative totals to the new values
and attaches the delta — the saturating subtraction of the previous totals
from the new ones — as the usage of the final emitted message, but only
when that final message is an assistant message without usage; otherwise
the delta is discarded and the message list is unchanged.  (When the
previous totals are `(0, 0)` the code attaches the totals unmodified,
which coincides with the saturating subtraction.) -/
theorem codexLineStep_token_count (conv : CodexConverters) (st : CodexLoadState)
    (val payload : Json) (input output : Nat)
    (htype : (val.get "type").bind Json.asStr = some "event_msg")
    (hpayload : val.get "payload" = some payload)
    (hevent : (payload.get "type").bind Json.asStr = some "token_count")
    (htotals : (extract_token_totals payload).or (extract_last_token_usage payload)
        = some (input, output)) :
    (codexLineStep conv st val).prev_input_tokens = input
      ∧ (codexLineStep conv st val).prev_output_tokens = output
      ∧ (codexLineStep conv st val).session_id = st.session_id
      ∧ (codexLineStep conv st val).current_model = st.current_model
      ∧ (codexLineStep conv st val).msg_counter = st.msg_counter
      ∧ ((∃ last, st.messages.getLast? = some last
            ∧ last.message_type = "assistant" ∧ last.usage = none
            ∧ (codexLineStep conv st val).messages = st.messages.dropLast ++ [{ last with
                usage := some ⟨some (input - st.prev_input_tokens),
                  some (output - st.prev_output_tokens), none, none, none⟩ }])
          ∨ ((codexLineStep conv st val).messages = st.messages
              ∧ ∀ last, st.messages.getLast? = some last →
                  ¬(last.message_type = "assistant" ∧ last.usage = none))) := by
  have hdelta : (if st.prev_input_tokens = 0 && st.prev_output_tokens = 0
        then (input, output)
        else (input - st.prev_input_tokens, output - st.prev_output_tokens))
      = (input - st.prev_input_tokens, output - st.prev_output_tokens) := by
    by_cases h : st.prev_input_tokens = 0 && st.prev_output_tokens = 0
    · rw [if_pos h]
      simp only [Bool.and_eq_true, decide_eq_true_eq] at h
      rw [h.1, h.2]
      simp
    · rw [if_neg h]
  have hstep : codexLineStep conv st val =
      (match st.messages.getLast? with
        | some last_msg =>
          if last_msg.message_type == "assistant" && last_msg.usage.isNone then
            { st with
                prev_input_tokens := input
                prev_output_tokens := output
                messages := st.messages.dropLast ++ [{ last_msg with
                  usage := some ⟨some (input - st.prev_input_tokens),
                    some (output - st.prev_output_tokens), none, none, none⟩ }] }
          else { st with prev_input_tokens := input, prev_output_tokens := output }
        | none => { st with prev_input_tokens := input, prev_output_tokens := output }) := by
    unfold codexLineStep
    rw [htype]
    simp only [Option.bind_some, Option.getD_some]
    rw [if_neg (by decide), if_neg (by decide), if_neg (by decide)]
    rw [if_pos (by decide)]
    rw [hpayload]
    simp only []
    rw [hevent]
    simp only [Option.bind_some, Option.getD_some]
    rw [if_pos (by decide)]
    rw [htotals]
    simp only [hdelta]
  rw [hstep]
  cases hlast : st.messages.getLast? with
  | none =>
    dsimp only
    refine ⟨rfl, rfl, rfl, rfl, rfl, Or.inr ⟨rfl, ?_⟩⟩
    intro last hcontra
    exact Option.noConfusion hcontra
  | some last_msg =>
    dsimp only
    by_cases helig : last_msg.message_type == "assistant" && last_msg.usage.isNone
    · rw [if_pos helig]
      have h2 := helig
      simp only [Bool.and_eq_true, beq_iff_eq, Option.isNone_iff_eq_none] at h2
      exact ⟨rfl, rfl, rfl, rfl, rfl, Or.inl ⟨last_msg, rfl, h2.1, h2.2, rfl⟩⟩
    · rw [if_neg helig]
      refine ⟨rfl, rfl, rfl, rfl, rfl, Or.inr ⟨rfl, ?_⟩⟩
      intro last hlast2 hcontra
      cases hlast2
      apply helig
      simp [hcontra.1, hcontra.2]

/-- A `token_count` payload with cumulative totals (10, 5). -/
def cexTokenPayload : Json :=
  Json.obj [("type", Json.str "token_count"),
    ("info", Json.obj [("total_token_usage",
      Json.obj [("input_tokens", Json.num 10), ("output_tokens", Json.num 5)])])]

/-- A `token_count` event line. -/
def cexTokenLine : Json :=
  Json.obj [("timestamp", Json.str "t3"), ("type", Json.str "event_msg"),
    ("payload", cexTokenPayload)]

/-- A `response_item` line (the payload body is irrelevant to the oracle
converters below). -/
def cexItemLine : Json :=
  Json.obj [("timestamp", Json.str "t1"), ("type", Json.str "response_item"),
    ("payload", Json.obj [])]

/-- An `event_msg` line carrying a user message. -/
def cexUserEventLine : Json :=
  Json.obj [("timestamp", Json.str "t2"), ("type", Json.str "event_msg"),
    ("payload", Json.obj [("type", Json.str "user_message")])]

/-- An assistant message without usage. -/
def cexAssistantNoUsage : ClaudeMessage :=
  { baseMessage with message_type := "assistant", uuid := "a1" }

/-- Converter oracles: every `response_item` yields an assistant message
without usage, every non-`token_count` event yields a user message. -/
def cexConverters : CodexConverters :=
  { convertItem := fun _ sid _ ts c =>
      (some { baseMessage with
          message_type := "assistant", uuid := "a1", session_id := sid, timestamp := ts },
        c + 1)
    convertEvent := fun _ sid ts c =>
      (some { baseMessage with
          message_type := "user", uuid := "u1", session_id := sid, timestamp := ts },
        c + 1) }

/-- A loop state whose final message is an assistant message without usage
and whose previous cumulative totals are (3, 2). -/
def cexCodexState : CodexLoadState :=
  { messages := [cexAssistantNoUsage], session_id := "s", current_model := none,
    prev_input_tokens := 3, prev_output_tokens := 2, msg_counter := 0 }

/-- Witness for C7: a concrete `token_count` event updates the cumulative
totals and attaches the saturating delta (7, 3) to the final assistant
message. -/
theorem codexLineStep_token_count_witness :
    (codexLineStep cexConverters cexCodexState cexTokenLine).prev_input_tokens = 10
      ∧ (codexLineStep cexConverters cexCodexState cexTokenLine).prev_output_tokens = 5 :=
  ⟨(codexLineStep_token_count cexConverters cexCodexState cexTokenLine cexTokenPayload
      10 5 (by rfl) (by rfl) (by rfl) (by rfl)).1,
    (codexLineStep_token_count cexConverters cexCodexState cexTokenLine cexTokenPayload
      10 5 (by rfl) (by rfl) (by rfl) (by rfl)).2.1⟩

/-- Counterexample to C7 as stated: after an assistant message (without
usage) and a later user message, a `token_count` event with extractable
totals attaches nothing — the most recent assistant message lacking usage
is not the last message, and the delta is discarded. -/
theorem codex_token_count_counterexample :
    (loadCodexLines cexConverters [cexItemLine, cexUserEventLine, cexTokenLine]).map
        (fun m => (m.message_type, m.usage.isSome))
      = [("assistant", false), ("user", false)]
      ∧ extract_token_totals cexTokenPayload = some (10, 5) := by
  exact ⟨by decide, by decide⟩

/-- C10. The Codex message loader refuses a session path that does not
exist or does not canonicalize, refuses a path whose canonical form lies
under none of the canonical sessions / archived_sessions directories, and
every successful load reads its lines from the validated canonical path,
which lies under one of those directories. -/
theorem codex_load_messages_confined (fs : CodexFs) (conv : CodexConverters)
    (session_path : FsPath) (raw_session_path : String) :
    (fs.pathExists session_path = false →
        codex_load_messages fs conv session_path raw_session_path
          = .error ("Session file not found: " ++ raw_session_path))
      ∧ (fs.canonicalize session_path = none → fs.pathExists session_path = true →
          codex_load_messages fs conv session_path raw_session_path
            = .error "Failed to resolve session path")
      ∧ (∀ msgs, codex_load_messages fs conv session_path raw_session_path = .ok msgs →
          ∃ canonical dirs d,
            fs.canonicalize session_path = some canonical
              ∧ (∃ base, fs.codexHome = some base
                  ∧ canonicalizeDirs fs [base ++ ["sessions"], base ++ ["archived_sessions"]]
                    = .ok dirs)
              ∧ d ∈ dirs ∧ List.isPrefixOf d canonical = true
              ∧ msgs = loadCodexLines conv (fs.lines canonical))
      ∧ (∀ canonical, fs.canonicalize session_path = some canonical →
          (∀ base dirs, fs.codexHome = some base →
              canonicalizeDirs fs [base ++ ["sessions"], base ++ ["archived_sessions"]]
                = .ok dirs →
              ∀ d ∈ dirs, List.isPrefixOf d canonical = false) →
          ∀ msgs, codex_load_messages fs conv session_path raw_session_path
            ≠ .ok msgs) := by
  have hok_char : ∀ msgs, codex_load_messages fs conv session_path raw_session_path = .ok msgs →
      ∃ canonical dirs d,
        fs.canonicalize session_path = some canonical
          ∧ (∃ base, fs.codexHome = some base
              ∧ canonicalizeDirs fs [base ++ ["sessions"], base ++ ["archived_sessions"]]
                = .ok dirs)
          ∧ d ∈ dirs ∧ List.isPrefixOf d canonical = true
          ∧ msgs = loadCodexLines conv (fs.lines canonical) := by
    intro msgs hok
    unfold codex_load_messages at hok
    by_cases hex : fs.pathExists session_path
    · rw [if_neg (by simp [hex])] at hok
      cases hval : validate_session_path fs session_path raw_session_path with
      | error e => rw [hval] at hok; exact Except.noConfusion hok
      | ok canonical_path =>
        rw [hval] at hok
        simp only [Except.ok.injEq] at hok
        unfold validate_session_path at hval
        cases hcanon : fs.canonicalize session_path with
        | none => rw [hcanon] at hval; exact Except.noConfusion hval
        | some canonical =>
          rw [hcanon] at hval
          cases hhome : fs.codexHome with
          | none =>
            rw [show get_sessions_dir fs = .error "Codex not found" by
              unfold get_sessions_dir; rw [hhome]] at hval
            exact Except.noConfusion hval
          | some base =>
            rw [show get_sessions_dir fs = .ok (base ++ ["sessions"]) by
              unfold get_sessions_dir; rw [hhome]] at hval
            rw [show get_archived_sessions_dir fs = .ok (base ++ ["archived_sessions"]) by
              unfold get_archived_sessions_dir; rw [hhome]] at hval
            dsimp only at hval
            cases hdirs : canonicalizeDirs fs
                [base ++ ["sessions"], base ++ ["archived_sessions"]] with
            | error e => rw [hdirs] at hval; exact Except.noConfusion hval
            | ok dirs =>
              rw [hdirs] at hval
              dsimp only at hval
              by_cases hempty : dirs.isEmpty
              · rw [if_pos hempty] at hval; exact Except.noConfusion hval
              · rw [if_neg hempty] at hval
                by_cases hany : dirs.any (fun allowed_dir =>
                    List.isPrefixOf allowed_dir canonical)
                · rw [if_pos hany] at hval
                  simp only [Except.ok.injEq] at hval
                  obtain ⟨d, hd, hpref⟩ := List.any_eq_true.mp hany
                  exact ⟨canonical, dirs, d, rfl, ⟨base, rfl, hdirs⟩, hd, hpref,
                    by rw [← hok, hval]⟩
                · rw [if_neg hany] at hval; exact Except.noConfusion hval
    · rw [if_pos (by simp [Bool.not_eq_true] at hex ⊢; exact hex)] at hok
      exact Except.noConfusion hok
  refine ⟨?_, ?_, hok_char, ?_⟩
  · intro hexist
    unfold codex_load_messages
    rw [if_pos (by rw [hexist]; rfl)]
  · intro hcanon hexists
    unfold codex_load_messages
    rw [if_neg (by rw [hexists]; decide)]
    rw [show validate_session_path fs session_path raw_session_path
        = .error "Failed to resolve session path" by
      unfold validate_session_path; rw [hcanon]]
  · intro canonical hcanon hnone msgs hok
    obtain ⟨canonical2, dirs, d, hc2, ⟨base, hbase, hdirs⟩, hd, hpref, -⟩ := hok_char msgs hok
    rw [hcanon] at hc2
    cases hc2
    have := hnone base dirs hbase hdirs d hd
    rw [hpref] at this
    exact Bool.noConfusion this

/-- A concrete Codex file system: a home at `home/.codex`, both session
directories present, an identity canonicalizer, and empty rollouts. -/
def cexCodexFs : CodexFs :=
  { codexHome := some ["home", ".codex"]
    pathExists := fun p =>
      p == ["home", ".codex", "sessions", "rollout-1.jsonl"]
        || p == ["home", ".codex", "sessions"]
        || p == ["home", ".codex", "archived_sessions"]
        || p == ["home", "evil.jsonl"]
    isDir := fun p =>
      p == ["home", ".codex", "sessions"] || p == ["home", ".codex", "archived_sessions"]
    canonicalize := fun p => some p
    lines := fun _ => [] }

/-- Witness for C10: a path outside the session directories is rejected
even though it exists and canonicalizes, and a missing path is rejected
up front. -/
theorem codex_load_messages_confined_witness :
    (∀ msgs, codex_load_messages cexCodexFs cexConverters ["home", "evil.jsonl"]
        "home/evil.jsonl" ≠ .ok msgs)
      ∧ codex_load_messages cexCodexFs cexConverters ["nowhere"] "nowhere"
        = .error ("Session file not found: nowhere") := by
  constructor
  · exact (codex_load_messages_confined cexCodexFs cexConverters ["home", "evil.jsonl"]
      "home/evil.jsonl").2.2.2 ["home", "evil.jsonl"] (by rfl) (by
        intro base dirs hbase hdirs d hd
        have hbase2 : base = ["home", ".codex"] := by
          simpa [cexCodexFs] using hbase.symm
        subst hbase2
        have hdirs2 : dirs = [["home", ".codex", "sessions"],
            ["home", ".codex", "archived_sessions"]] := by
          rw [show canonicalizeDirs cexCodexFs
              [["home", ".codex"] ++ ["sessions"], ["home", ".codex"] ++ ["archived_sessions"]]
              = .ok [["home", ".codex", "sessions"], ["home", ".codex", "archived_sessions"]]
            by rfl] at hdirs
          simpa using hdirs.symm
        subst hdirs2
        simp only [List.mem_cons, List.mem_singleton] at hd
        rcases hd with hd | hd | hd
        · subst hd; decide
        · subst hd; decide
        · exact absurd hd (by simp))
  · exact (codex_load_messages_confined cexCodexFs cexConverters ["nowhere"]
      "nowhere").1 (by decide)

end CCHV
